import Mathlib

/-!
Verification development for the slippi-situation-parser repository.

The Rust sources (src/states.rs, src/parser.rs, src/lib.rs) are shallowly
embedded below.  Machine floats (f32) are modelled by the rationals, raw
animation-state ids (a repr(u16) enum read via transmute in the source) by
natural numbers, and Rust panics (todo, unwrap on None, expect on None,
unreachable) by an explicit error monad.  Recursive parsing loops carry an
explicit fuel argument; fuel exhaustion is one more error value, and every
theorem about the parser either evaluates it on inputs where the fuel
visibly suffices or is conditioned on a normal (non-error) result.
-/

namespace Slippi

/-- Rust panics and aborts, made explicit.  fuelOut is a modelling artifact
for the fuel-based encoding of loops; it never corresponds to a source
behaviour and is treated as an abnormal result everywhere. -/
inductive PanicKind where
  | todoUnimplemented
  | expectNone
  | unwrapNone
  | unreachableBranch
  | fuelOut
deriving DecidableEq, Repr

/-- Two dimensional f32 vector (lib.rs, struct Vector), modelled over ℚ. -/
structure Vec2 where
  x : Rat
  y : Rat
deriving DecidableEq, Repr

/-- lib.rs, enum Direction. -/
inductive Direction where
  | Left
  | Right
deriving DecidableEq, Repr

/-- states.rs, enum BroadState: the 18 coarse categories. -/
inductive BroadState where
  | Attack
  | Air
  | Airdodge
  | SpecialLanding
  | Ground
  | Walk
  | DashRun
  | Shield
  | Ledge
  | LedgeAction
  | Hitstun
  | GenericInactionable
  | JumpSquat
  | AirJump
  | Crouch
  | Grab
  | Roll
  | Spotdodge
deriving DecidableEq, Repr

/-- states.rs, enum ActionableState. -/
inductive ActionableState where
  | Air
  | Ground
  | Dash
  | Run
  | Shield
  | Ledge
deriving DecidableEq, Repr, Fintype

/-- states.rs, enum GroundAttack. -/
inductive GroundAttack where
  | Utilt
  | Ftilt
  | Dtilt
  | Jab
  | Usmash
  | Dsmash
  | Fsmash
  | DashAttack
deriving DecidableEq, Repr

/-- states.rs, enum AirAttack. -/
inductive AirAttack where
  | Nair
  | Uair
  | Fair
  | Bair
  | Dair
deriving DecidableEq, Repr

/-- states.rs, enum AttackType. -/
inductive AttackType where
  | GroundAttack (g : GroundAttack)
  | AirAttack (a : AirAttack)
deriving DecidableEq, Repr

/-- states.rs, enum LedgeAction. -/
inductive LedgeAction where
  | Attack
  | Jump
  | Roll
  | GetUp
deriving DecidableEq, Repr

/-- states.rs, enum HighLevelAction. -/
inductive HighLevelAction where
  | GroundAttack (g : GroundAttack)
  | Aerial (a : AirAttack)
  | JumpAerial (a : AirAttack)
  | Fullhop
  | FullhopAerial (a : AirAttack)
  | Shorthop
  | ShorthopAerial (a : AirAttack)
  | Grab
  | GroundWait
  | AirWait
  | AirJump
  | Airdodge
  | LedgeWait
  | LedgeDash
  | LedgeRoll
  | LedgeJump
  | LedgeHop
  | LedgeAerial (a : AirAttack)
  | LedgeGetUp
  | LedgeAttack
  | LedgeDrop
  | WavedashRight
  | WavedashDown
  | WavedashLeft
  | WavelandRight
  | WavelandDown
  | WavelandLeft
  | DashLeft
  | DashRight
  | WalkLeft
  | WalkRight
  | Shield
  | Spotdodge
  | RollForward
  | RollBackward
  | Crouch
  | Hitstun
deriving DecidableEq, Repr

/-- states.rs, enum Character (27 playable characters, repr u8, ids 0 to 26). -/
inductive Character where
  | Mario
  | Fox
  | CaptainFalcon
  | DonkeyKong
  | Kirby
  | Bowser
  | Link
  | Sheik
  | Ness
  | Peach
  | Popo
  | Nana
  | Pikachu
  | Samus
  | Yoshi
  | Jigglypuff
  | Mewtwo
  | Luigi
  | Marth
  | Zelda
  | YoungLink
  | DrMario
  | Falco
  | Pichu
  | GameAndWatch
  | Ganondorf
  | Roy
deriving DecidableEq, Repr

/-- The discriminant of a Character (the `character as usize` cast in
parser.rs parse_jump_type). -/
def Character.idx : Character → Nat
  | .Mario => 0
  | .Fox => 1
  | .CaptainFalcon => 2
  | .DonkeyKong => 3
  | .Kirby => 4
  | .Bowser => 5
  | .Link => 6
  | .Sheik => 7
  | .Ness => 8
  | .Peach => 9
  | .Popo => 10
  | .Nana => 11
  | .Pikachu => 12
  | .Samus => 13
  | .Yoshi => 14
  | .Jigglypuff => 15
  | .Mewtwo => 16
  | .Luigi => 17
  | .Marth => 18
  | .Zelda => 19
  | .YoungLink => 20
  | .DrMario => 21
  | .Falco => 22
  | .Pichu => 23
  | .GameAndWatch => 24
  | .Ganondorf => 25
  | .Roy => 26

/-- Raw animation-state ids.  states.rs declares MeleeState as a repr(u16)
enum with explicit discriminants 0 to 340 that is read by transmuting the
raw id (MeleeState.from_u16), so the id itself is the faithful carrier. -/
abbrev MeleeState := Nat

namespace MeleeState

def Turn : MeleeState := 18
def TurnRun : MeleeState := 19
def Dash : MeleeState := 20
def Run : MeleeState := 21
def RunDirect : MeleeState := 22
def RunBrake : MeleeState := 23
def KneeBend : MeleeState := 24
def Wait : MeleeState := 14
def Fall : MeleeState := 29
def Passive : MeleeState := 199
def EscapeF : MeleeState := 233
def EscapeB : MeleeState := 234
def CliffCatch : MeleeState := 252
def CliffWait : MeleeState := 253
def CliffClimbSlow : MeleeState := 254
def CliffClimbQuick : MeleeState := 255
def CliffAttackSlow : MeleeState := 256
def CliffAttackQuick : MeleeState := 257
def CliffEscapeSlow : MeleeState := 258
def CliffEscapeQuick : MeleeState := 259
def CliffJumpSlow1 : MeleeState := 260
def CliffJumpSlow2 : MeleeState := 261
def CliffJumpQuick1 : MeleeState := 262
def CliffJumpQuick2 : MeleeState := 263

end MeleeState

/-- states.rs, MeleeState.broad_stateLOOKUP table, 341 entries in
declaration order of the MeleeState enum (ids 0 to 340).  Runs of equal
entries are written with List.replicate; the index ranges are annotated. -/
def LOOKUP : List BroadState :=
  List.replicate 13 .GenericInactionable   -- 0-12   DeadDown .. Rebirth
  ++ [.Air]                                -- 13     RebirthWait
  ++ [.Ground]                             -- 14     Wait
  ++ List.replicate 3 .Walk                -- 15-17  WalkSlow WalkMiddle WalkFast
  ++ [.Ground]                             -- 18     Turn
  ++ List.replicate 5 .DashRun             -- 19-23  TurnRun Dash Run RunDirect RunBrake
  ++ [.JumpSquat]                          -- 24     KneeBend
  ++ List.replicate 2 .Air                 -- 25-26  JumpF JumpB
  ++ List.replicate 2 .AirJump             -- 27-28  JumpAerialF JumpAerialB
  ++ List.replicate 6 .Air                 -- 29-34  Fall .. FallAerialB
  ++ List.replicate 3 .GenericInactionable -- 35-37  FallSpecial FallSpecialF FallSpecialB
  ++ [.Air]                                -- 38     DamageFall
  ++ List.replicate 2 .Crouch              -- 39-40  Squat SquatWait
  ++ [.Ground]                             -- 41     SquatRv
  ++ [.GenericInactionable]                -- 42     Landing
  ++ [.SpecialLanding]                     -- 43     LandingFallSpecial
  ++ List.replicate 26 .Attack             -- 44-69  Attack11 .. AttackAirLw
  ++ List.replicate 5 .GenericInactionable -- 70-74  LandingAirN .. LandingAirLw
  ++ List.replicate 17 .Hitstun            -- 75-91  DamageHi1 .. DamageFlyRoll
  ++ List.replicate 86 .GenericInactionable -- 92-177 LightGet .. LiftTurn
  ++ List.replicate 2 .Shield              -- 178-179 GuardOn Guard
  ++ [.GenericInactionable]                -- 180    GuardOff
  ++ List.replicate 2 .Shield              -- 181-182 GuardSetOff GuardReflect
  ++ List.replicate 29 .GenericInactionable -- 183-211 DownBoundU .. FuraFura
  ++ List.replicate 11 .Grab               -- 212-222 Catch .. ThrowLw
  ++ List.replicate 10 .Hitstun            -- 223-232 CapturePulledHi .. CaptureFoot
  ++ List.replicate 2 .Roll                -- 233-234 EscapeF EscapeB
  ++ [.Spotdodge]                          -- 235    Escape
  ++ [.Airdodge]                           -- 236    EscapeAir
  ++ List.replicate 2 .GenericInactionable -- 237-238 ReboundStop Rebound
  ++ List.replicate 5 .Hitstun             -- 239-243 ThrownF .. ThrownLwWomen
  ++ [.Air]                                -- 244    Pass
  ++ List.replicate 2 .Ground              -- 245-246 Ottotto OttottoWait
  ++ List.replicate 4 .GenericInactionable -- 247-250 FlyReflectWall .. StopCeil
  ++ [.Air]                                -- 251    MissFoot
  ++ List.replicate 2 .Ledge               -- 252-253 CliffCatch CliffWait
  ++ List.replicate 10 .LedgeAction        -- 254-263 CliffClimbSlow .. CliffJumpQuick2
  ++ List.replicate 2 .GenericInactionable -- 264-265 AppealR AppealL
  ++ List.replicate 9 .Hitstun             -- 266-274 ShoulderedWait .. ThrownFLw
  ++ List.replicate 66 .GenericInactionable -- 275-340 CaptureCaptain .. BarrelCannonWait

/-- states.rs, MeleeState.broad_state: ids above 340 short-circuit to
GenericInactionable, otherwise the table is indexed by the id.  The source
indexing LOOKUP[id] cannot go out of bounds (id is at most 340 and the
table has 341 entries, theorem C6); getD makes the embedding total. -/
def broad_state (s : MeleeState) : BroadState :=
  if s > 340 then .GenericInactionable else LOOKUP.getD s .GenericInactionable

/-- states.rs, MeleeState.from_u16: ids at most 340 are transmuted to the
matching variant, larger ids fall back to MeleeState.Passive. -/
def from_u16 (st : Nat) : MeleeState :=
  if st ≤ 340 then st else MeleeState.Passive

/-- states.rs, MeleeState.ledge_action. -/
def ledge_action (s : MeleeState) : Option LedgeAction :=
  if s = MeleeState.CliffClimbSlow ∨ s = MeleeState.CliffClimbQuick then some .GetUp
  else if s = MeleeState.CliffAttackSlow ∨ s = MeleeState.CliffAttackQuick then some .Attack
  else if s = MeleeState.CliffEscapeSlow ∨ s = MeleeState.CliffEscapeQuick then some .Roll
  else if s = MeleeState.CliffJumpSlow1 ∨ s = MeleeState.CliffJumpSlow2
       ∨ s = MeleeState.CliffJumpQuick1 ∨ s = MeleeState.CliffJumpQuick2 then some .Jump
  else none

/-- states.rs, MeleeState.actionable_state.  The two unreachable branches
of the source (non-listed DashRun ids, non-listed Ledge ids) are modelled
as explicit errors; theorem C10 shows they are dead. -/
def actionable_state (s : MeleeState) : Except PanicKind (Option ActionableState) :=
  match broad_state s with
  | .Air => .ok (some .Air)
  | .Ground => .ok (some .Ground)
  | .Walk => .ok (some .Ground)
  | .DashRun =>
    if s = MeleeState.TurnRun then .ok (some .Run)
    else if s = MeleeState.Dash then .ok (some .Dash)
    else if s = MeleeState.Run then .ok (some .Run)
    else if s = MeleeState.RunDirect then .ok (some .Run)
    else if s = MeleeState.RunBrake then .ok (some .Run)
    else .error .unreachableBranch
  | .Shield => .ok (some .Shield)
  | .Ledge =>
    if s = MeleeState.CliffCatch then .ok none
    else if s = MeleeState.CliffWait then .ok (some .Ledge)
    else .error .unreachableBranch
  | .AirJump => .ok (some .Air)
  | .Crouch => .ok (some .Ground)
  | _ => .ok none

/-- states.rs, MeleeState.attack_type (ids 44 to 69 are the attack
animations, in enum order Attack11 .. AttackAirLw). -/
def attack_type (s : MeleeState) : Option AttackType :=
  if s = 44 ∨ s = 45 ∨ s = 46 ∨ s = 47 ∨ s = 48 ∨ s = 49 then some (.GroundAttack .Jab)
  else if s = 50 then some (.GroundAttack .DashAttack)
  else if s = 51 ∨ s = 52 ∨ s = 53 ∨ s = 54 ∨ s = 55 then some (.GroundAttack .Ftilt)
  else if s = 56 then some (.GroundAttack .Utilt)
  else if s = 57 then some (.GroundAttack .Dtilt)
  else if s = 58 ∨ s = 59 ∨ s = 60 ∨ s = 61 ∨ s = 62 then some (.GroundAttack .Fsmash)
  else if s = 63 then some (.GroundAttack .Usmash)
  else if s = 64 then some (.GroundAttack .Dsmash)
  else if s = 65 then some (.AirAttack .Nair)
  else if s = 66 then some (.AirAttack .Fair)
  else if s = 67 then some (.AirAttack .Bair)
  else if s = 68 then some (.AirAttack .Uair)
  else if s = 69 then some (.AirAttack .Dair)
  else none

/-- states.rs, HighLevelAction.from_u8. -/
def from_u8 (n : Nat) : Option HighLevelAction :=
  match n with
  | 0 => some (.GroundAttack .Utilt)
  | 1 => some (.GroundAttack .Ftilt)
  | 2 => some (.GroundAttack .Dtilt)
  | 3 => some (.GroundAttack .Jab)
  | 4 => some (.GroundAttack .Usmash)
  | 5 => some (.GroundAttack .Dsmash)
  | 6 => some (.GroundAttack .Fsmash)
  | 7 => some (.GroundAttack .DashAttack)
  | 8 => some (.Aerial .Nair)
  | 9 => some (.Aerial .Uair)
  | 10 => some (.Aerial .Fair)
  | 11 => some (.Aerial .Bair)
  | 12 => some (.Aerial .Dair)
  | 13 => some (.JumpAerial .Nair)
  | 14 => some (.JumpAerial .Uair)
  | 15 => some (.JumpAerial .Fair)
  | 16 => some (.JumpAerial .Bair)
  | 17 => some (.JumpAerial .Dair)
  | 18 => some .Fullhop
  | 19 => some (.FullhopAerial .Nair)
  | 20 => some (.FullhopAerial .Uair)
  | 21 => some (.FullhopAerial .Fair)
  | 22 => some (.FullhopAerial .Bair)
  | 23 => some (.FullhopAerial .Dair)
  | 24 => some .Shorthop
  | 25 => some (.ShorthopAerial .Nair)
  | 26 => some (.ShorthopAerial .Uair)
  | 27 => some (.ShorthopAerial .Fair)
  | 28 => some (.ShorthopAerial .Bair)
  | 29 => some (.ShorthopAerial .Dair)
  | 30 => some .Grab
  | 31 => some .GroundWait
  | 32 => some .AirWait
  | 33 => some .AirJump
  | 34 => some .Airdodge
  | 35 => some .LedgeWait
  | 36 => some .LedgeDash
  | 37 => some .LedgeRoll
  | 38 => some .LedgeJump
  | 39 => some .LedgeHop
  | 40 => some (.LedgeAerial .Nair)
  | 41 => some (.LedgeAerial .Uair)
  | 42 => some (.LedgeAerial .Fair)
  | 43 => some (.LedgeAerial .Bair)
  | 44 => some (.LedgeAerial .Dair)
  | 45 => some .LedgeGetUp
  | 46 => some .LedgeAttack
  | 47 => some .LedgeDrop
  | 48 => some .WavedashRight
  | 49 => some .WavedashDown
  | 50 => some .WavedashLeft
  | 51 => some .WavelandRight
  | 52 => some .WavelandDown
  | 53 => some .WavelandLeft
  | 54 => some .DashLeft
  | 55 => some .DashRight
  | 56 => some .WalkLeft
  | 57 => some .WalkRight
  | 58 => some .Shield
  | 59 => some .Spotdodge
  | 60 => some .RollForward
  | 61 => some .RollBackward
  | 62 => some .Crouch
  | 63 => some .Hitstun
  | _ => none

/-- states.rs, HighLevelAction.into_u8. -/
def into_u8 : HighLevelAction → Nat
  | .GroundAttack .Utilt => 0
  | .GroundAttack .Ftilt => 1
  | .GroundAttack .Dtilt => 2
  | .GroundAttack .Jab => 3
  | .GroundAttack .Usmash => 4
  | .GroundAttack .Dsmash => 5
  | .GroundAttack .Fsmash => 6
  | .GroundAttack .DashAttack => 7
  | .Aerial .Nair => 8
  | .Aerial .Uair => 9
  | .Aerial .Fair => 10
  | .Aerial .Bair => 11
  | .Aerial .Dair => 12
  | .JumpAerial .Nair => 13
  | .JumpAerial .Uair => 14
  | .JumpAerial .Fair => 15
  | .JumpAerial .Bair => 16
  | .JumpAerial .Dair => 17
  | .Fullhop => 18
  | .FullhopAerial .Nair => 19
  | .FullhopAerial .Uair => 20
  | .FullhopAerial .Fair => 21
  | .FullhopAerial .Bair => 22
  | .FullhopAerial .Dair => 23
  | .Shorthop => 24
  | .ShorthopAerial .Nair => 25
  | .ShorthopAerial .Uair => 26
  | .ShorthopAerial .Fair => 27
  | .ShorthopAerial .Bair => 28
  | .ShorthopAerial .Dair => 29
  | .Grab => 30
  | .GroundWait => 31
  | .AirWait => 32
  | .AirJump => 33
  | .Airdodge => 34
  | .LedgeWait => 35
  | .LedgeDash => 36
  | .LedgeRoll => 37
  | .LedgeJump => 38
  | .LedgeHop => 39
  | .LedgeAerial .Nair => 40
  | .LedgeAerial .Uair => 41
  | .LedgeAerial .Fair => 42
  | .LedgeAerial .Bair => 43
  | .LedgeAerial .Dair => 44
  | .LedgeGetUp => 45
  | .LedgeAttack => 46
  | .LedgeDrop => 47
  | .WavedashRight => 48
  | .WavedashDown => 49
  | .WavedashLeft => 50
  | .WavelandRight => 51
  | .WavelandDown => 52
  | .WavelandLeft => 53
  | .DashLeft => 54
  | .DashRight => 55
  | .WalkLeft => 56
  | .WalkRight => 57
  | .Shield => 58
  | .Spotdodge => 59
  | .RollForward => 60
  | .RollBackward => 61
  | .Crouch => 62
  | .Hitstun => 63

/-- lib.rs, struct Frame: one per-simulation-tick snapshot. -/
structure Frame where
  character : Character
  port_idx : Nat
  direction : Direction
  velocity : Vec2
  hit_velocity : Vec2
  position : Vec2
  state : MeleeState
  anim_frame : Rat
deriving DecidableEq, Repr

/-- The pending origin snapshot taken by ActionBuilder.start_action
(parser.rs, struct ActionInitData). -/
structure ActionInitData where
  action_start : Nat
  actionable_state : ActionableState
  position : Vec2
  velocity : Vec2
deriving DecidableEq, Repr

/-- A produced action, with the fields ActionBuilder.finish_action
populates (parser.rs).  The struct declaration in lib.rs names the first
snapshot field start_state; the builder stores the ActionableState
snapshot taken at start_action. -/
structure Action where
  action_taken : HighLevelAction
  frame_start : Nat
  frame_end : Nat
  actionable_state : ActionableState
  initial_position : Vec2
  initial_velocity : Vec2
deriving DecidableEq, Repr

/-- lib.rs, generate_interactions: the inner
while response.frame_start <= initiation.frame_start loop, which replaces
the current response from the remaining player actions and reports
exhaustion of the player sequence (the break of the outer loop). -/
def gi_adv_response (i : Action) : Action → List Action → Option (Action × List Action)
  | r, ps =>
    if r.frame_start ≤ i.frame_start then
      match ps with
      | [] => none
      | r2 :: ps2 => gi_adv_response i r2 ps2
    else some (r, ps)

/-- lib.rs, generate_interactions: the inner
while initiation.frame_start <= response.frame_start loop. -/
def gi_adv_initiation (r : Action) : Action → List Action → Option (Action × List Action)
  | i, os =>
    if i.frame_start ≤ r.frame_start then
      match os with
      | [] => none
      | i2 :: os2 => gi_adv_initiation r i2 os2
    else some (i, os)

/-- lib.rs, generate_interactions: the outer loop.  Each iteration that
recurses has consumed at least one opponent action (the advance loop runs
at least once because the just-pushed response starts strictly after the
current initiation), so fuel equal to the remaining opponent count plus
one is always sufficient. -/
def gi_loop : Nat → Action → List Action → Action → List Action →
    List (Action × Action) → List (Action × Action)
  | 0, _, _, _, _, acc => acc
  | fuel + 1, i, os, r, ps, acc =>
    match gi_adv_response i r ps with
    | none => acc
    | some (r2, ps2) =>
      let acc2 := acc ++ [(i, r2)]
      match gi_adv_initiation r2 i os with
      | none => acc2
      | some (i2, os2) => gi_loop fuel i2 os2 r2 ps2 acc2

/-- lib.rs, generate_interactions.  A produced pair is
(opponent_initiation, player_response).  Either input being empty yields
the empty output (the two initial split_first calls). -/
def generate_interactions (player_actions opponent_actions : List Action) :
    List (Action × Action) :=
  match opponent_actions, player_actions with
  | i :: os, r :: ps => gi_loop (os.length + 1) i os r ps []
  | _, _ => []

/-- parser.rs, struct ActionBuilder: the forward-only frame cursor plus
the pending action snapshot.  The Rust slice plus consumed counter is the
remaining frame list plus cur_frame. -/
structure ActionBuilder where
  frames : List Frame
  cur_frame : Nat
  action_init_data : Option ActionInitData
deriving DecidableEq, Repr

/-- parser.rs, ActionBuilder.finished. -/
def finished (b : ActionBuilder) : Bool := b.frames.isEmpty

/-- parser.rs, ActionBuilder.peek_frame. -/
def peek_frame (b : ActionBuilder) : Option Frame := b.frames.head?

/-- parser.rs, ActionBuilder.peek. -/
def peek (b : ActionBuilder) : Option MeleeState := b.frames.head?.map (fun fr => fr.state)

/-- parser.rs, ActionBuilder.next_frame: consume and return one frame. -/
def next_frame (b : ActionBuilder) : Option Frame × ActionBuilder :=
  match b.frames with
  | [] => (none, b)
  | f :: rs => (some f, { b with frames := rs, cur_frame := b.cur_frame + 1 })

/-- parser.rs, ActionBuilder.next. -/
def next (b : ActionBuilder) : Option MeleeState × ActionBuilder :=
  ((next_frame b).1.map (fun fr => fr.state), (next_frame b).2)

/-- parser.rs, ActionBuilder.peek_n: the states of the up to n upcoming
frames, without consuming. -/
def peek_n (n : Nat) (b : ActionBuilder) : List MeleeState :=
  (b.frames.take n).map (fun fr => fr.state)

/-- parser.rs, ActionBuilder.start_action: snapshot the current frame as
the pending origin.  The question-mark early returns of the source leave
the builder unchanged; a panic inside actionable_state propagates. -/
def start_action (b : ActionBuilder) : Except PanicKind ActionBuilder :=
  match b.frames with
  | [] => .ok b
  | fr :: _ =>
    match actionable_state fr.state with
    | .error e => .error e
    | .ok none => .ok b
    | .ok (some a) =>
      .ok { b with
            action_init_data := some (ActionInitData.mk b.cur_frame a fr.position fr.velocity) }

/-- parser.rs, ActionBuilder.finish_action: build the Action from the
pending snapshot and the current cursor position.  The expect call on a
missing snapshot is the one programmer-contract abort of the core. -/
def finish_action (b : ActionBuilder) (hla : HighLevelAction) : Except PanicKind Action :=
  match b.action_init_data with
  | none => .error .expectNone
  | some d =>
    .ok { action_taken := hla, frame_start := d.action_start, frame_end := b.cur_frame,
          actionable_state := d.actionable_state,
          initial_position := d.position, initial_velocity := d.velocity }

/-- parser.rs, ActionBuilder.skip_while, on the frame list: returns the
remaining frames and the number consumed. -/
def skip_while_aux (f : MeleeState → Bool) : List Frame → List Frame × Nat
  | [] => ([], 0)
  | fr :: rest =>
    if f fr.state then
      let r := skip_while_aux f rest
      (r.1, r.2 + 1)
    else (fr :: rest, 0)

/-- parser.rs, ActionBuilder.skip_while. -/
def skip_while (f : MeleeState → Bool) (b : ActionBuilder) : ActionBuilder :=
  let r := skip_while_aux f b.frames
  { frames := r.1, cur_frame := b.cur_frame + r.2, action_init_data := b.action_init_data }

/-- parser.rs, ActionBuilder.skip_broad_state. -/
def skip_broad_state (bs : BroadState) (b : ActionBuilder) : ActionBuilder :=
  skip_while (fun st => broad_state st == bs) b

/-- parser.rs, ActionBuilder.skip_while_at_most, on the frame list.  The
result is (remaining frames, final n, frames consumed).  Mirrors the
source loop exactly: the counter n is incremented after a successful
peek, and when n reaches the cap the loop breaks before consuming, so the
capped exit leaves the matching frame at the cursor. -/
def swam_aux (f : MeleeState → Bool) (mx : Nat) : List Frame → Nat → List Frame × Nat × Nat
  | [], n => ([], n, 0)
  | fr :: rest, n =>
    if f fr.state then
      if n + 1 = mx then (fr :: rest, n + 1, 0)
      else
        let r := swam_aux f mx rest (n + 1)
        (r.1, r.2.1, r.2.2 + 1)
    else (fr :: rest, n, 0)

/-- parser.rs, ActionBuilder.skip_while_at_most: returns the final n and
the advanced builder. -/
def skip_while_at_most (f : MeleeState → Bool) (mx : Nat) (b : ActionBuilder) :
    Nat × ActionBuilder :=
  let r := swam_aux f mx b.frames 0
  (r.2.1, { frames := r.1, cur_frame := b.cur_frame + r.2.2,
            action_init_data := b.action_init_data })

/-- parser.rs, struct Courtesy. -/
structure Courtesy where
  timeout : Nat
  state : BroadState
deriving DecidableEq, Repr

/-- parser.rs, enum CourtesyReturn. -/
inductive CourtesyReturn where
  | NoSkip
  | SkipSome
  | SkipMax
deriving DecidableEq, Repr

/-- parser.rs, Action.skip_courtesy. -/
def skip_courtesy (c : Courtesy) (b : ActionBuilder) : CourtesyReturn × ActionBuilder :=
  let r := skip_while_at_most (fun st => broad_state st == c.state) c.timeout b
  (if r.1 = c.timeout then .SkipMax else if r.1 = 0 then .NoSkip else .SkipSome, r.2)

/-- A concrete frame with a given raw state and otherwise neutral fields,
used for concrete evaluations. -/
def mk_frame (st : MeleeState) : Frame :=
  { character := .Mario, port_idx := 0, direction := .Left, velocity := ⟨0, 0⟩,
    hit_velocity := ⟨0, 0⟩, position := ⟨0, 0⟩, state := st, anim_frame := 0 }

/-- parser.rs, enum JumpType. -/
inductive JumpType where
  | Full
  | Short
deriving DecidableEq, Repr

/-- The result type of the parsing handlers: a panic, or an optional
action plus the advanced builder. -/
abbrev PResult := Except PanicKind (Option Action × ActionBuilder)

/-- parser.rs, Action.AIR_COURTESY. -/
def AIR_COURTESY : Courtesy := Courtesy.mk 10 .Air

/-- parser.rs, Action.AIRJUMP_COURTESY. -/
def AIRJUMP_COURTESY : Courtesy := Courtesy.mk 10 .AirJump

/-- parser.rs, Action.GROUND_COURTESY. -/
def GROUND_COURTESY : Courtesy := Courtesy.mk 5 .Ground

/-- parser.rs, Action.WALK_COURTESY. -/
def WALK_COURTESY : Courtesy := Courtesy.mk 5 .Walk

/-- parser.rs, Action.SHIELD_COURTESY. -/
def SHIELD_COURTESY : Courtesy := Courtesy.mk 5 .Shield

/-- parser.rs, Action.HITSTUN_COURTESY (note: its state is Air). -/
def HITSTUN_COURTESY : Courtesy := Courtesy.mk 5 .Air

/-- parser.rs, Action.LEDGE_COURTESY. -/
def LEDGE_COURTESY : Courtesy := Courtesy.mk 15 .Ledge

/-- parser.rs, Action.DASH_COURTESY. -/
def DASH_COURTESY : Courtesy := Courtesy.mk 3 .DashRun

/-- parser.rs, Action.CROUCH_COURTESY. -/
def CROUCH_COURTESY : Courtesy := Courtesy.mk 5 .Crouch

/-- parser.rs, Action.parse_attack_to_end: classify the head attack and
consume the Attack run; the two question marks return without consuming. -/
def parse_attack_to_end (b : ActionBuilder) : Option AttackType × ActionBuilder :=
  match peek b with
  | none => (none, b)
  | some st =>
    match attack_type st with
    | none => (none, b)
    | some atk => (some atk, skip_broad_state .Attack b)

/-- parser.rs, Action.parse_attack. -/
def parse_attack (b : ActionBuilder) : PResult :=
  match parse_attack_to_end b with
  | (none, b2) => .ok (none, b2)
  | (some atk, b2) =>
    let hla := match atk with
      | .AirAttack a => HighLevelAction.Aerial a
      | .GroundAttack g => HighLevelAction.GroundAttack g
    (finish_action b2 hla).map (fun a => (some a, b2))

/-- parser.rs, Action.parse_simple_action. -/
def parse_simple_action (b : ActionBuilder) (bs : BroadState) (hla : HighLevelAction) : PResult :=
  let b2 := skip_broad_state bs b
  (finish_action b2 hla).map (fun a => (some a, b2))

/-- parser.rs, Action.parse_roll. -/
def parse_roll (b : ActionBuilder) : PResult :=
  match next b with
  | (none, b2) => .ok (none, b2)
  | (some st, b2) =>
    if st = MeleeState.EscapeF then parse_simple_action b2 .Roll .RollForward
    else if st = MeleeState.EscapeB then parse_simple_action b2 .Roll .RollBackward
    else .ok (none, b2)

/-- parser.rs, Action.parse_ledge_action. -/
def parse_ledge_action (b : ActionBuilder) : PResult :=
  match peek b with
  | none => .ok (none, b)
  | some st =>
    match ledge_action st with
    | none => .ok (none, b)
    | some la =>
      let hla := match la with
        | .GetUp => HighLevelAction.LedgeGetUp
        | .Attack => HighLevelAction.LedgeAttack
        | .Jump => HighLevelAction.LedgeJump
        | .Roll => HighLevelAction.LedgeRoll
      let b2 := skip_broad_state .LedgeAction b
      (finish_action b2 hla).map (fun a => (some a, b2))

/-- parser.rs, Action.parse_hitstun, the inner loop: skip the Hitstun
run; if any of the next HITSTUN_COURTESY.timeout states differs from the
courtesy state (Air), skip the Air run; continue while the next state is
Hitstun again.  Each recursing iteration has consumed at least one frame,
so fuel frames-plus-one suffices. -/
def parse_hitstun_loop : Nat → ActionBuilder → Except PanicKind ActionBuilder
  | 0, _ => .error .fuelOut
  | fuel + 1, b =>
    let b1 := skip_broad_state .Hitstun b
    let b2 :=
      if (peek_n HITSTUN_COURTESY.timeout b1).any
          (fun st => ! (broad_state st == HITSTUN_COURTESY.state))
      then skip_broad_state HITSTUN_COURTESY.state b1
      else b1
    if (peek b2).map broad_state = some BroadState.Hitstun then parse_hitstun_loop fuel b2
    else .ok b2

/-- parser.rs, Action.parse_hitstun. -/
def parse_hitstun (b : ActionBuilder) : PResult :=
  match parse_hitstun_loop (b.frames.length + 1) b with
  | .error e => .error e
  | .ok b2 => (finish_action b2 .Hitstun).map (fun a => (some a, b2))

/-- parser.rs, Action.parse_airdodge (EPSILON is the f32 literal 0.1,
modelled as the rational 1 / 10). -/
def parse_airdodge (b : ActionBuilder) : PResult :=
  let b1 := skip_broad_state .Airdodge b
  match peek b1 with
  | none => .ok (none, b1)
  | some st =>
    if broad_state st = .SpecialLanding then
      match next_frame b1 with
      | (none, _) => .error .unwrapNone
      | (some fr, b2) =>
        let hla :=
          if fr.velocity.x < -(1 / 10 : Rat) then HighLevelAction.WavelandLeft
          else if fr.velocity.x > (1 / 10 : Rat) then HighLevelAction.WavelandRight
          else HighLevelAction.WavelandDown
        let b3 := skip_broad_state .SpecialLanding b2
        (finish_action b3 hla).map (fun a => (some a, b3))
    else
      (finish_action b1 .Airdodge).map (fun a => (some a, b1))

/-- parser.rs, Action.parse_air_jump. -/
def parse_air_jump (b : ActionBuilder) : PResult :=
  let b1 := (next b).2
  match skip_courtesy AIRJUMP_COURTESY b1 with
  | (cr, b2) =>
    if cr = .SkipMax then
      let b3 := skip_broad_state .AirJump b2
      (finish_action b3 .AirJump).map (fun a => (some a, b3))
    else
      match peek b2 with
      | none => .ok (none, b2)
      | some st =>
        if broad_state st = .Attack then
          match parse_attack_to_end b2 with
          | (none, b3) => .ok (none, b3)
          | (some atk, b3) =>
            match atk with
            | .AirAttack a => (finish_action b3 (.JumpAerial a)).map (fun x => (some x, b3))
            | _ => .ok (none, b3)
        else
          (finish_action b2 .AirJump).map (fun a => (some a, b2))

/-- parser.rs, the static JUMP_VELOCITIES table: 26 zero entries (the
source marks it TODO and ships zeros). -/
def JUMP_VELOCITIES : List Rat := List.replicate 26 0

/-- parser.rs, Action.parse_jump_type, after the loop: the per-character
cutoff lookup (the question mark abandons the action when the character
id has no table entry) and the Full/Short classification. -/
def jump_type_lookup (last : Frame) (b : ActionBuilder) : Option JumpType × ActionBuilder :=
  match JUMP_VELOCITIES.get? last.character.idx with
  | none => (none, b)
  | some cut => (some (if last.velocity.y > cut then JumpType.Full else JumpType.Short), b)

/-- parser.rs, Action.parse_jump_type, the while loop: advance over the
JumpSquat run tracking the last consumed squat frame; reaching the end of
the stream inside the loop condition abandons the action. -/
def jump_type_loop (last : Frame) :
    List Frame → Nat → Option ActionInitData → Option JumpType × ActionBuilder
  | [], cur, init => (none, ActionBuilder.mk [] cur init)
  | f :: rest, cur, init =>
    if broad_state f.state = .JumpSquat then jump_type_loop f rest (cur + 1) init
    else jump_type_lookup last (ActionBuilder.mk (f :: rest) cur init)

/-- parser.rs, Action.parse_jump_type. -/
def parse_jump_type (b : ActionBuilder) : Option JumpType × ActionBuilder :=
  match next_frame b with
  | (none, b2) => (none, b2)
  | (some f0, b1) => jump_type_loop f0 b1.frames b1.cur_frame b1.action_init_data

/-- parser.rs, Action.parse_jump_squat, the Airdodge or SpecialLanding
branch: parse the airdodge and remap a waveland to the matching
wavedash. -/
def parse_jump_squat_airdodge (b : ActionBuilder) : PResult :=
  match parse_airdodge b with
  | .error e => .error e
  | .ok (none, b3) => .ok (none, b3)
  | .ok (some a, b3) =>
    let hla2 := match a.action_taken with
      | .WavelandRight => HighLevelAction.WavedashRight
      | .WavelandLeft => HighLevelAction.WavedashLeft
      | .WavelandDown => HighLevelAction.WavedashDown
      | x => x
    .ok (some { a with action_taken := hla2 }, b3)

/-- parser.rs, Action.parse_jump_squat. -/
def parse_jump_squat (b : ActionBuilder) : PResult :=
  match parse_jump_type b with
  | (none, b1) => .ok (none, b1)
  | (some jt, b1) =>
    let hla := match jt with
      | .Full => HighLevelAction.Fullhop
      | .Short => HighLevelAction.Shorthop
    match skip_courtesy AIR_COURTESY b1 with
    | (cr, b2) =>
      if cr = .SkipMax then (finish_action b2 hla).map (fun a => (some a, b2))
      else
        match peek b2 with
        | none => .ok (none, b2)
        | some st =>
          match broad_state st with
          | .Attack =>
            match parse_attack_to_end b2 with
            | (none, b3) => .ok (none, b3)
            | (some atk, b3) =>
              let hla2 := match atk with
                | .AirAttack a =>
                  match jt with
                  | .Full => HighLevelAction.FullhopAerial a
                  | .Short => HighLevelAction.ShorthopAerial a
                | .GroundAttack g => HighLevelAction.GroundAttack g
              (finish_action b3 hla2).map (fun x => (some x, b3))
          | .AirJump => parse_air_jump b2
          | .Airdodge => parse_jump_squat_airdodge b2
          | .SpecialLanding => parse_jump_squat_airdodge b2
          | .Grab => parse_simple_action b2 .Grab .Grab
          | _ => (finish_action b2 hla).map (fun a => (some a, b2))

/-- parser.rs, Action.parse_ledge.  The unlisted post-ledge broad states
fall into the todo macro of the source, modelled as a panic. -/
def parse_ledge (b : ActionBuilder) : PResult :=
  match skip_courtesy LEDGE_COURTESY b with
  | (cr, b1) =>
    if cr = .SkipMax then (finish_action b1 .LedgeWait).map (fun a => (some a, b1))
    else
      match peek b1 with
      | none => .ok (none, b1)
      | some st =>
        match broad_state st with
        | .LedgeAction => parse_ledge_action b1
        | .Hitstun => parse_hitstun b1
        | .Air =>
          match skip_courtesy AIR_COURTESY b1 with
          | (cr2, b2) =>
            if cr2 = .SkipMax then (finish_action b2 .LedgeDrop).map (fun a => (some a, b2))
            else
              match peek b2 with
              | none => .ok (none, b2)
              | some st2 =>
                match broad_state st2 with
                | .Hitstun => parse_hitstun b2
                | .AirJump =>
                  let b3 := (next b2).2
                  match skip_courtesy AIRJUMP_COURTESY b3 with
                  | (cr3, b4) =>
                    if cr3 = .SkipMax then
                      let b5 := skip_broad_state .AirJump b4
                      (finish_action b5 .LedgeHop).map (fun a => (some a, b5))
                    else
                      match peek b4 with
                      | none => .ok (none, b4)
                      | some st3 =>
                        match broad_state st3 with
                        | .Airdodge =>
                          match parse_airdodge b4 with
                          | .error e => .error e
                          | .ok (none, b5) => .ok (none, b5)
                          | .ok (some a, b5) =>
                            let hla2 := match a.action_taken with
                              | .WavelandLeft => HighLevelAction.LedgeDash
                              | .WavelandDown => HighLevelAction.LedgeDash
                              | .WavelandRight => HighLevelAction.LedgeDash
                              | x => x
                            .ok (some { a with action_taken := hla2 }, b5)
                        | .Attack =>
                          match parse_attack_to_end b4 with
                          | (none, b5) => .ok (none, b5)
                          | (some atk, b5) =>
                            match atk with
                            | .AirAttack a =>
                              (finish_action b5 (.LedgeAerial a)).map (fun x => (some x, b5))
                            | .GroundAttack g =>
                              (finish_action b5 (.GroundAttack g)).map (fun x => (some x, b5))
                        | .SpecialLanding =>
                          let b5 := skip_broad_state .SpecialLanding b4
                          (finish_action b5 .LedgeDash).map (fun x => (some x, b5))
                        | .Hitstun => parse_hitstun b4
                        | _ => (finish_action b4 .LedgeHop).map (fun x => (some x, b4))
                | _ => (finish_action b2 .LedgeDrop).map (fun x => (some x, b2))
        | _ => .error .todoUnimplemented

/-- parser.rs, Action.parse_courtesy, with the mutual recursion back into
parse_next abstracted as the argument rec (the call re-enters the
dispatcher with one unit of fuel less). -/
def parse_courtesy (rec : ActionBuilder → PResult) (b : ActionBuilder) (c : Courtesy)
    (wait_action : HighLevelAction) : PResult :=
  match skip_courtesy c b with
  | (cr, b1) =>
    if cr = .SkipMax then
      let b2 := skip_broad_state c.state b1
      (finish_action b2 wait_action).map (fun a => (some a, b2))
    else rec b1

/-- parser.rs, Action.parse_walk, with the recursion into parse_next
abstracted as rec. -/
def parse_walk (rec : ActionBuilder → PResult) (b : ActionBuilder) : PResult :=
  match next_frame b with
  | (none, _) => .error .unwrapNone
  | (some fr, b1) =>
    match skip_courtesy WALK_COURTESY b1 with
    | (cr, b2) =>
      if cr = .SkipMax then
        let b3 := skip_broad_state .Walk b2
        let hla := match fr.direction with
          | .Left => HighLevelAction.WalkLeft
          | .Right => HighLevelAction.WalkRight
        (finish_action b3 hla).map (fun a => (some a, b3))
      else rec b2

/-- parser.rs, Action.parse_dash, with the recursion into parse_next
abstracted as rec. -/
def parse_dash (rec : ActionBuilder → PResult) (b : ActionBuilder) : PResult :=
  match next_frame b with
  | (none, _) => .error .unwrapNone
  | (some fr, b1) =>
    let hla := match fr.direction with
      | .Left => HighLevelAction.DashLeft
      | .Right => HighLevelAction.DashRight
    parse_courtesy rec b1 DASH_COURTESY hla

/-- parser.rs, Action.parse_next: the dispatch on the broad state of the
next unconsumed frame, by structural recursion on fuel.  Each entry
consumes one unit of fuel; re-entry through the courtesy handlers
consumes at least one frame per two entries, so fuel
twice-frames-plus-three always suffices. -/
def parse_next : Nat → ActionBuilder → PResult
  | 0, _ => .error .fuelOut
  | fuel + 1, b =>
    match peek b with
    | none => .ok (none, b)
    | some st =>
      match broad_state st with
      | .Attack => parse_attack b
      | .Air => parse_courtesy (parse_next fuel) b AIR_COURTESY .AirWait
      | .Airdodge => parse_airdodge b
      | .SpecialLanding => .ok (none, skip_broad_state .SpecialLanding b)
      | .Ground => parse_courtesy (parse_next fuel) b GROUND_COURTESY .GroundWait
      | .Walk => parse_walk (parse_next fuel) b
      | .DashRun => parse_dash (parse_next fuel) b
      | .Shield => parse_courtesy (parse_next fuel) b SHIELD_COURTESY .Shield
      | .Ledge => parse_ledge b
      | .LedgeAction => parse_ledge_action b
      | .Hitstun => parse_hitstun b
      | .GenericInactionable => .ok (none, skip_broad_state .GenericInactionable b)
      | .JumpSquat => parse_jump_squat b
      | .AirJump => parse_air_jump b
      | .Crouch => parse_courtesy (parse_next fuel) b CROUCH_COURTESY .Crouch
      | .Grab => parse_simple_action b .Grab .Grab
      | .Roll => parse_roll b
      | .Spotdodge => parse_simple_action b .Spotdodge .Spotdodge

/-- parser.rs, parse: the top-level loop.  Frames with no actionable
state are advanced over one by one; at each actionable frame the pending
snapshot is taken and the dispatcher runs; a produced action is appended.
Every iteration consumes at least one frame, so fuel frames-plus-one
suffices. -/
def parse_loop : Nat → ActionBuilder → Except PanicKind (List Action)
  | 0, _ => .error .fuelOut
  | fuel + 1, b =>
    match b.frames with
    | [] => .ok []
    | fr :: _ =>
      match actionable_state fr.state with
      | .error e => .error e
      | .ok none => parse_loop fuel (next b).2
      | .ok (some _) =>
        match start_action b with
        | .error e => .error e
        | .ok b1 =>
          match parse_next (2 * b1.frames.length + 3) b1 with
          | .error e => .error e
          | .ok (some a, b2) =>
            match parse_loop fuel b2 with
            | .error e => .error e
            | .ok acts => .ok (a :: acts)
          | .ok (none, b2) => parse_loop fuel b2

/-- parser.rs, parse. -/
def parse (frames : List Frame) : Except PanicKind (List Action) :=
  parse_loop (frames.length + 1) (ActionBuilder.mk frames 0 none)

/-- Soundness contract of a handler result: on a normal return the cursor
only moved forward by exactly the frames it consumed, the pending
snapshot is untouched, and an emitted action starts at the snapshot
origin and ends exactly at the final cursor position. -/
def Advances (b : ActionBuilder) (r : PResult) : Prop :=
  ∀ oa b2, r = .ok (oa, b2) →
    (b.cur_frame ≤ b2.cur_frame
      ∧ b2.cur_frame + b2.frames.length = b.cur_frame + b.frames.length
      ∧ b2.action_init_data = b.action_init_data)
    ∧ ∀ a, oa = some a →
        (∃ d, b.action_init_data = some d ∧ a.frame_start = d.action_start)
        ∧ a.frame_end = b2.cur_frame

/-- Strictness contract of a handler result: an emitted action ends
strictly after the entry cursor position (the handler consumed at least
one frame before finishing it). -/
def StrictAfter (b : ActionBuilder) (r : PResult) : Prop :=
  ∀ a b2, r = .ok (some a, b2) → b.cur_frame < a.frame_end

/-- Claim C3 failing input: a CliffWait (Ledge) frame followed by a Wait
(Ground) frame. -/
def c3_frames : List Frame := [mk_frame 253, mk_frame 14]

/-- Claim C4 concrete input: one Hitstun frame (DamageHi1, id 75), a
two-Air-frame gap (Fall, id 29), one more Hitstun frame, then a final
Ground frame (Wait, id 14). -/
def c4_frames : List Frame :=
  [mk_frame 75, mk_frame 29, mk_frame 29, mk_frame 75, mk_frame 14]

/-- A two-Air-frame builder used to exercise the capped skip. -/
def c2_cap_builder : ActionBuilder :=
  { frames := [mk_frame 29, mk_frame 29], cur_frame := 0, action_init_data := none }

/-- A four-Air-frame builder used to exercise the capped skip. -/
def c2_builder : ActionBuilder :=
  { frames := [mk_frame 29, mk_frame 29, mk_frame 29, mk_frame 29], cur_frame := 0,
    action_init_data := none }

/-- An Air courtesy with timeout 3 used to exercise skip_courtesy. -/
def c2_courtesy : Courtesy := Courtesy.mk 3 .Air

/-- A concrete frame with a chosen character. -/
def mk_frame_c (st : MeleeState) (c : Character) : Frame :=
  { mk_frame st with character := c }

/-- A concrete frame with a chosen horizontal velocity. -/
def mk_frame_v (st : MeleeState) (vx : Rat) : Frame :=
  { mk_frame st with velocity := ⟨vx, 0⟩ }

/-- A concrete pending snapshot used by the C7 witness. -/
def c7_init : ActionInitData :=
  ActionInitData.mk 0 ActionableState.Air ⟨0, 0⟩ ⟨0, 0⟩

/-- A minimal concrete action used to exercise the aligner. -/
def mk_act (fs : Nat) : Action :=
  { action_taken := .GroundWait, frame_start := fs, frame_end := fs + 1,
    actionable_state := .Ground, initial_position := ⟨0, 0⟩, initial_velocity := ⟨0, 0⟩ }

/-- Opponent initiations at frame_start 10, 50, 90. -/
def c1_opponent : List Action := [mk_act 10, mk_act 50, mk_act 90]

/-- Player responses at frame_start 5, 40, 60, 95. -/
def c1_player : List Action := [mk_act 5, mk_act 40, mk_act 60, mk_act 95]

/-- Reports whether an embedded Rust call returned normally (did not
panic). -/
def except_ok {α : Type} : Except PanicKind α → Bool
  | .ok _ => true
  | .error _ => false

/-- Six consecutive Wait (Ground-broad) frames: a concrete input on which
the parser emits one GroundWait action. -/
def c5_frames : List Frame := List.replicate 6 (mk_frame 14)

/-- The single action the parser emits on c5_frames: GroundWait covering
frames 0 to 6. -/
def c5_action : Action :=
  Action.mk .GroundWait 0 6 .Ground (Vec2.mk 0 0) (Vec2.mk 0 0)


-- ======================================================================
-- Theorems
-- ======================================================================

theorem except_ok_iff {α : Type} (x : Except PanicKind α) :
    except_ok x = true ↔ ∃ r, x = .ok r := by
  cases x <;> simp [except_ok]


/-- Unfolding: the capped skip loop on a matching head that reaches the
cap breaks without consuming. -/
theorem swam_aux_cons_cap (f : MeleeState → Bool) (mx : Nat) (fr : Frame)
    (rest : List Frame) (n0 : Nat) (hf : f fr.state = true) (hm : n0 + 1 = mx) :
    swam_aux f mx (fr :: rest) n0 = (fr :: rest, n0 + 1, 0) := by
  simp [swam_aux, hf, hm]

/-- Unfolding: the capped skip loop on a matching head below the cap
consumes it and recurses. -/
theorem swam_aux_cons_rec (f : MeleeState → Bool) (mx : Nat) (fr : Frame)
    (rest : List Frame) (n0 : Nat) (hf : f fr.state = true) (hm : ¬ (n0 + 1 = mx)) :
    swam_aux f mx (fr :: rest) n0
      = ((swam_aux f mx rest (n0 + 1)).1, (swam_aux f mx rest (n0 + 1)).2.1,
         (swam_aux f mx rest (n0 + 1)).2.2 + 1) := by
  simp [swam_aux, hf, hm]

/-- Unfolding: the capped skip loop stops at a non-matching head. -/
theorem swam_aux_cons_stop (f : MeleeState → Bool) (mx : Nat) (fr : Frame)
    (rest : List Frame) (n0 : Nat) (hf : f fr.state = false) :
    swam_aux f mx (fr :: rest) n0 = (fr :: rest, n0, 0) := by
  simp [swam_aux, hf]

/-- The balance, bound and count properties of the capped skip loop: the
consumed count plus the remaining length is the input length, the
returned n never exceeds the cap, and the consumed count is the returned
n except on a capped exit, where one fewer frame was consumed. -/
theorem swam_aux_spec (f : MeleeState → Bool) (mx : Nat) :
    ∀ (l : List Frame) (n0 : Nat), n0 < mx →
      (swam_aux f mx l n0).2.2 + (swam_aux f mx l n0).1.length = l.length
      ∧ (swam_aux f mx l n0).2.1 ≤ mx
      ∧ (if (swam_aux f mx l n0).2.1 = mx
         then (swam_aux f mx l n0).2.2 + 1 + n0 = mx
         else (swam_aux f mx l n0).2.2 + n0 = (swam_aux f mx l n0).2.1) := by
  intro l
  induction l with
  | nil =>
    intro n0 h
    simp only [swam_aux]
    refine ⟨rfl, by omega, ?_⟩
    split_ifs with hc <;> omega
  | cons fr rest ih =>
    intro n0 h
    by_cases hf : f fr.state
    · by_cases hm : n0 + 1 = mx
      · rw [swam_aux_cons_cap f mx fr rest n0 hf hm]
        dsimp only
        refine ⟨by simp, by omega, ?_⟩
        split_ifs
        omega
      · have h2 : n0 + 1 < mx := by omega
        obtain ⟨e1, e2, e3⟩ := ih (n0 + 1) h2
        rw [swam_aux_cons_rec f mx fr rest n0 hf hm]
        dsimp only
        refine ⟨by simp only [List.length_cons]; omega, e2, ?_⟩
        split_ifs at e3 ⊢ with hc
        · omega
        · omega
    · rw [swam_aux_cons_stop f mx fr rest n0 (by simpa using hf)]
      dsimp only
      refine ⟨by simp, by omega, ?_⟩
      split_ifs with hc <;> omega

/-- A capped exit of the skip loop leaves the cursor on a frame that
still satisfies the predicate. -/
theorem swam_aux_cap_head (f : MeleeState → Bool) (mx : Nat) :
    ∀ (l : List Frame) (n0 : Nat), n0 < mx → (swam_aux f mx l n0).2.1 = mx →
      ∃ fr rest2, (swam_aux f mx l n0).1 = fr :: rest2 ∧ f fr.state = true := by
  intro l
  induction l with
  | nil =>
    intro n0 h hcap
    simp only [swam_aux] at hcap
    exact absurd hcap (by omega)
  | cons fr rest ih =>
    intro n0 h hcap
    by_cases hf : f fr.state
    · by_cases hm : n0 + 1 = mx
      · exact ⟨fr, rest, by rw [swam_aux_cons_cap f mx fr rest n0 hf hm], hf⟩
      · have h2 : n0 + 1 < mx := by omega
        rw [swam_aux_cons_rec f mx fr rest n0 hf hm] at hcap ⊢
        exact ih (n0 + 1) h2 hcap
    · rw [swam_aux_cons_stop f mx fr rest n0 (by simpa using hf)] at hcap
      dsimp only at hcap
      exact absurd hcap (by omega)

/-- An uncapped exit of the skip loop leaves the cursor (if any frames
remain) on a frame that fails the predicate. -/
theorem swam_aux_uncap_head (f : MeleeState → Bool) (mx : Nat) :
    ∀ (l : List Frame) (n0 : Nat) (fr : Frame) (rest2 : List Frame),
      (swam_aux f mx l n0).2.1 ≠ mx → (swam_aux f mx l n0).1 = fr :: rest2 →
      f fr.state = false := by
  intro l
  induction l with
  | nil =>
    intro n0 fr rest2 _ habs
    simp only [swam_aux] at habs
    exact absurd habs (by simp)
  | cons fr0 rest ih =>
    intro n0 fr rest2 hne hres
    by_cases hf : f fr0.state
    · by_cases hm : n0 + 1 = mx
      · rw [swam_aux_cons_cap f mx fr0 rest n0 hf hm] at hne
        exact absurd hm hne
      · rw [swam_aux_cons_rec f mx fr0 rest n0 hf hm] at hne hres
        exact ih (n0 + 1) fr rest2 hne hres
    · rw [swam_aux_cons_stop f mx fr0 rest n0 (by simpa using hf)] at hres
      cases hres
      simpa using hf

/-- Running the capped skip loop over a fully matching run shorter than
the remaining budget consumes exactly the run. -/
theorem swam_aux_run (f : MeleeState → Bool) (mx : Nat) :
    ∀ (run rest : List Frame) (n0 : Nat),
      (∀ fr ∈ run, f fr.state = true) → n0 + run.length < mx →
      (∀ fr rest2, rest = fr :: rest2 → f fr.state = false) →
      swam_aux f mx (run ++ rest) n0 = (rest, n0 + run.length, run.length) := by
  intro run
  induction run with
  | nil =>
    intro rest n0 _ _ hrest
    cases rest with
    | nil => simp [swam_aux]
    | cons fr r2 =>
      have hfr := hrest fr r2 rfl
      simp only [List.nil_append]
      rw [swam_aux_cons_stop f mx fr r2 n0 hfr]
      simp
  | cons fr run ih =>
    intro rest n0 hall hlt hrest
    have hf : f fr.state = true := hall fr (by simp)
    have hm : ¬ (n0 + 1 = mx) := by
      simp only [List.length_cons] at hlt
      omega
    rw [List.cons_append, swam_aux_cons_rec f mx fr (run ++ rest) n0 hf hm]
    rw [ih rest (n0 + 1) (fun a ha => hall a (by simp [ha]))
      (by simp only [List.length_cons] at hlt; omega) hrest]
    dsimp only
    simp only [List.length_cons, Prod.mk.injEq]
    exact ⟨trivial, by omega, trivial⟩

/-- Running the capped skip loop against a long enough fully matching
prefix hits the cap, consuming one frame fewer than the budget. -/
theorem swam_aux_cap_run (f : MeleeState → Bool) :
    ∀ (l : List Frame) (mx n0 : Nat), n0 < mx → mx - n0 ≤ l.length →
      (∀ fr ∈ l.take (mx - n0), f fr.state = true) →
      swam_aux f mx l n0 = (l.drop (mx - n0 - 1), mx, mx - n0 - 1) := by
  intro l
  induction l with
  | nil =>
    intro mx n0 h1 h2 _
    simp only [List.length_nil, Nat.le_zero] at h2
    exact absurd h2 (by omega)
  | cons fr rest ih =>
    intro mx n0 h1 h2 h3
    have htk : (fr :: rest).take (mx - n0) = fr :: rest.take (mx - n0 - 1) := by
      rw [show mx - n0 = (mx - n0 - 1) + 1 by omega]
      rfl
    have hf : f fr.state = true := by
      apply h3
      rw [htk]
      exact List.mem_cons_self _ _
    by_cases hm : n0 + 1 = mx
    · have hz : mx - n0 - 1 = 0 := by omega
      rw [swam_aux_cons_cap f mx fr rest n0 hf hm, hz, List.drop_zero, hm]
    · have h1' : n0 + 1 < mx := by omega
      have h2' : mx - (n0 + 1) ≤ rest.length := by
        simp only [List.length_cons] at h2
        omega
      have h3' : ∀ a ∈ rest.take (mx - (n0 + 1)), f a.state = true := by
        intro a ha
        apply h3
        rw [htk]
        apply List.mem_cons_of_mem
        rw [show mx - n0 - 1 = mx - (n0 + 1) by omega]
        exact ha
      rw [swam_aux_cons_rec f mx fr rest n0 hf hm]
      rw [ih mx (n0 + 1) h1' h2' h3']
      dsimp only
      have hd : mx - n0 - 1 = (mx - (n0 + 1) - 1) + 1 := by omega
      rw [hd, List.drop_succ_cons]

/-- Claim C1 counterexample: on opponent initiations [10, 50, 90] and
player responses [5, 40, 60, 95] the aligner does not return the two
claimed pairs (10, 40) and (90, 95): its output differs from that list
(it in fact contains a third pair (50, 60), see the amended theorem). -/
theorem C1_counterexample :
    (generate_interactions c1_player c1_opponent).map
      (fun pr => (pr.1.frame_start, pr.2.frame_start)) ≠ [(10, 40), (90, 95)] := by
  decide

/-- Claim C1 (amended): on opponent initiations [10, 50, 90] and player
responses [5, 40, 60, 95] the aligner yields exactly the three pairs
(initiation 10, response 40), (initiation 50, response 60) and
(initiation 90, response 95); the response at frame 5 is never paired.
After pairing (10, 40) the initiation pointer advances only to 50 (the
advance condition initiation.frame_start ≤ response.frame_start fails at
50 against 40), so the response at 60 pairs with the initiation at 50. -/
theorem C1_interactions :
    (generate_interactions c1_player c1_opponent).map
      (fun pr => (pr.1.frame_start, pr.2.frame_start)) = [(10, 40), (50, 60), (90, 95)] := by
  decide

set_option maxRecDepth 4000 in
/-- Claim C6: the broad_state lookup table has an entry for every raw id
0 to 340 (the source indexing LOOKUP[id] never goes out of bounds, so the
function is total on the enum and returns a category without error), and
every raw id of at least 341, entering through MeleeState.from_u16, maps
to GenericInactionable. -/
theorem C6_broad_state_total (n m : Nat) (hn : n ≤ 340) (hm : 341 ≤ m) :
    (LOOKUP.get? n).isSome ∧ broad_state (from_u16 m) = .GenericInactionable := by
  constructor
  · have h : ∀ k, k < 341 → (LOOKUP.get? k).isSome := by decide
    exact h n (by omega)
  · have h : ¬ (m ≤ 340) := by omega
    simp only [from_u16, if_neg h]
    decide

/-- Claim C3: the parser is not total — segment aborts on the two-frame
input CliffWait (a Ledge frame) then Wait (a Ground frame): parse_ledge
reaches the todo macro of the source when the state after a ledge run is
outside LedgeAction, Hitstun and Air.  The claim that the only permitted
abort is finish_action without start_action is contradicted by this
panic; the spec states the intent (total, no aborts) and the unfinished
todo branch in the code violates it. -/
theorem C3_parse_panics_on_ledge_to_ground :
    parse c3_frames = .error .todoUnimplemented := by
  rfl

/-- Claim C4 counterexample: on a Hitstun frame, a two-Air-frame gap, a
Hitstun frame and a final Ground frame, segment emits exactly one Hitstun
action, but its span is [1, 4), not the entire run [0, 4): the leading
Hitstun run is not actionable, is advanced over by the top-level loop
before the action starts, and is not covered by the emitted span. -/
theorem C4_counterexample :
    (parse c4_frames).map
      (fun l => l.map (fun a => (a.frame_start, a.frame_end, a.action_taken)))
      = .ok [(1, 4, .Hitstun)] := by
  rfl

/-- The uncapped skip loop consumes a fully matching run and stops at the
first failing frame (or the end). -/
theorem sw_aux_run (f : MeleeState → Bool) :
    ∀ (run rest : List Frame),
      (∀ fr ∈ run, f fr.state = true) →
      (∀ fr r2, rest = fr :: r2 → f fr.state = false) →
      skip_while_aux f (run ++ rest) = (rest, run.length) := by
  intro run
  induction run with
  | nil =>
    intro rest _ hstop
    cases rest with
    | nil => simp [skip_while_aux]
    | cons fr r2 => simp [skip_while_aux, hstop fr r2 rfl]
  | cons fr run ih =>
    intro rest hall hstop
    have hf : f fr.state = true := hall fr (by simp)
    simp only [List.cons_append, skip_while_aux, hf, if_true, List.append_eq]
    rw [ih rest (fun a ha => hall a (by simp [ha])) hstop]
    simp

/-- Builder-level form of sw_aux_run for skip_broad_state. -/
theorem skip_broad_state_run (bs : BroadState) (run rest : List Frame) (cur : Nat)
    (init : Option ActionInitData)
    (hall : ∀ fr ∈ run, broad_state fr.state = bs)
    (hstop : ∀ fr r2, rest = fr :: r2 → ¬ (broad_state fr.state = bs)) :
    skip_broad_state bs (ActionBuilder.mk (run ++ rest) cur init)
      = ActionBuilder.mk rest (cur + run.length) init := by
  simp only [skip_broad_state, skip_while]
  rw [sw_aux_run _ run rest (by intro a ha; simp [hall a ha])
    (by intro a r2 h; simp [hstop a r2 h])]

/-- Builder-level uncapped run behaviour of skip_courtesy: a matching run
shorter than the timeout is consumed whole and classified NoSkip or
SkipSome by its length. -/
theorem skip_courtesy_run (c : Courtesy) (run rest : List Frame) (cur : Nat)
    (init : Option ActionInitData)
    (hall : ∀ fr ∈ run, broad_state fr.state = c.state)
    (hstop : ∀ fr r2, rest = fr :: r2 → ¬ (broad_state fr.state = c.state))
    (hlen : run.length < c.timeout) :
    skip_courtesy c (ActionBuilder.mk (run ++ rest) cur init)
      = (if run.length = 0 then .NoSkip else .SkipSome,
         ActionBuilder.mk rest (cur + run.length) init) := by
  have hswam := swam_aux_run (fun st => broad_state st == c.state) c.timeout run rest 0
    (by intro a ha; simp [hall a ha])
    (by simpa using hlen)
    (by intro a r2 h; simp [hstop a r2 h])
  simp only [Nat.zero_add] at hswam
  simp only [skip_courtesy, skip_while_at_most, hswam]
  rw [if_neg (by omega)]

/-- The jump-type loop walks a full JumpSquat run, tracking the last
consumed frame, and then classifies at the first non-squat frame. -/
theorem jump_type_loop_run :
    ∀ (run : List Frame) (last r0 : Frame) (rest : List Frame) (cur : Nat)
      (init : Option ActionInitData),
      (∀ fr ∈ run, broad_state fr.state = .JumpSquat) →
      ¬ (broad_state r0.state = .JumpSquat) →
      jump_type_loop last (run ++ r0 :: rest) cur init
        = jump_type_lookup ((last :: run).getLast (by simp))
            (ActionBuilder.mk (r0 :: rest) (cur + run.length) init) := by
  intro run
  induction run with
  | nil =>
    intro last r0 rest cur init _ hr0
    simp only [List.nil_append, jump_type_loop, if_neg hr0, List.getLast_singleton,
      List.length_nil, Nat.add_zero]
  | cons f run ih =>
    intro last r0 rest cur init hall hr0
    have hf : broad_state f.state = .JumpSquat := hall f (by simp)
    simp only [List.cons_append, jump_type_loop, if_pos hf, List.append_eq]
    rw [ih f r0 rest (cur + 1) init (fun a ha => hall a (by simp [ha])) hr0]
    have hlast : ((f :: run).getLast (by simp)) = ((last :: f :: run).getLast (by simp)) :=
      (@List.getLast_cons _ last (f :: run) (by simp)).symm
    rw [hlast]
    have harith : cur + 1 + run.length = cur + (run.length + 1) := by omega
    rw [harith]
    rfl

/-- parse_jump_type consumes a whole JumpSquat run ended by a non-squat
frame and hands its last squat frame to the cutoff lookup. -/
theorem parse_jump_type_run
    (squats : List Frame) (r0 : Frame) (rest : List Frame) (cur : Nat)
    (init : Option ActionInitData)
    (h1 : squats ≠ [])
    (h2 : ∀ fr ∈ squats, broad_state fr.state = .JumpSquat)
    (h3 : ¬ (broad_state r0.state = .JumpSquat)) :
    parse_jump_type (ActionBuilder.mk (squats ++ r0 :: rest) cur init)
      = jump_type_lookup (squats.getLast h1)
          (ActionBuilder.mk (r0 :: rest) (cur + squats.length) init) := by
  obtain ⟨s0, stail, rfl⟩ : ∃ s0 stail, squats = s0 :: stail := by
    cases squats with
    | nil => exact absurd rfl h1
    | cons a l => exact ⟨a, l, rfl⟩
  simp only [List.cons_append, parse_jump_type, next_frame]
  rw [jump_type_loop_run stail s0 r0 rest (cur + 1) init
    (fun a ha => h2 a (by simp [ha])) h3]
  have hlast : ((s0 :: stail).getLast (by simp)) = (s0 :: stail).getLast h1 := rfl
  rw [hlast]
  have harith : cur + 1 + stail.length = cur + (s0 :: stail).length := by
    simp only [List.length_cons]
    omega
  rw [harith]

/-- Claim C8: for every JumpSquat run whose last squat frame carries a
character with no entry in the jump-velocity table (only Roy, id 26,
against the 26-entry table), parse_jump_type returns none with the run
consumed, and parse_jump_squat therefore emits no action: the jump is
abandoned, not guessed. -/
theorem C8_missing_jump_velocity
    (squats : List Frame) (r0 : Frame) (rest : List Frame) (cur : Nat)
    (init : Option ActionInitData)
    (h1 : squats ≠ [])
    (h2 : ∀ fr ∈ squats, broad_state fr.state = .JumpSquat)
    (h3 : ¬ (broad_state r0.state = .JumpSquat))
    (h4 : JUMP_VELOCITIES.get? (squats.getLast h1).character.idx = none) :
    parse_jump_type (ActionBuilder.mk (squats ++ r0 :: rest) cur init)
      = (none, ActionBuilder.mk (r0 :: rest) (cur + squats.length) init)
    ∧ parse_jump_squat (ActionBuilder.mk (squats ++ r0 :: rest) cur init)
      = .ok (none, ActionBuilder.mk (r0 :: rest) (cur + squats.length) init) := by
  have hjt : parse_jump_type (ActionBuilder.mk (squats ++ r0 :: rest) cur init)
      = (none, ActionBuilder.mk (r0 :: rest) (cur + squats.length) init) := by
    rw [parse_jump_type_run squats r0 rest cur init h1 h2 h3]
    simp only [jump_type_lookup, h4]
  refine ⟨hjt, ?_⟩
  simp only [parse_jump_squat, hjt]

/-- Claim C8 witness: a single KneeBend (JumpSquat) frame carried by Roy,
followed by one Fall (Air) frame. -/
theorem C8_missing_jump_velocity_witness :
    parse_jump_type (ActionBuilder.mk ([mk_frame_c 24 .Roy] ++ mk_frame 29 :: []) 0 none)
      = (none, ActionBuilder.mk (mk_frame 29 :: []) (0 + [mk_frame_c 24 .Roy].length) none)
    ∧ parse_jump_squat (ActionBuilder.mk ([mk_frame_c 24 .Roy] ++ mk_frame 29 :: []) 0 none)
      = .ok (none, ActionBuilder.mk (mk_frame 29 :: []) (0 + [mk_frame_c 24 .Roy].length) none) :=
  C8_missing_jump_velocity [mk_frame_c 24 .Roy] (mk_frame 29) [] 0 none
    (by decide) (by decide) (by decide) (by decide)

/-- An Airdodge run followed by a SpecialLanding frame resolves into a
waveland classified by the sign of the landing frame horizontal velocity
(epsilon 1 / 10), with the pending snapshot supplying the action
origin. -/
theorem parse_airdodge_waveland
    (ad : List Frame) (land : Frame) (rest : List Frame) (cur : Nat) (d : ActionInitData)
    (h_ad_all : ∀ fr ∈ ad, broad_state fr.state = .Airdodge)
    (h_land : broad_state land.state = .SpecialLanding) :
    ∃ b3 : ActionBuilder,
      parse_airdodge (ActionBuilder.mk (ad ++ land :: rest) cur (some d))
        = .ok (some (Action.mk
            (if land.velocity.x < -(1 / 10 : Rat) then HighLevelAction.WavelandLeft
             else if land.velocity.x > (1 / 10 : Rat) then HighLevelAction.WavelandRight
             else HighLevelAction.WavelandDown)
            d.action_start b3.cur_frame d.actionable_state d.position d.velocity), b3) := by
  have hskip : skip_broad_state .Airdodge (ActionBuilder.mk (ad ++ land :: rest) cur (some d))
      = ActionBuilder.mk (land :: rest) (cur + ad.length) (some d) :=
    skip_broad_state_run .Airdodge ad (land :: rest) cur (some d) h_ad_all
      (by
        intro a r2 h
        injection h with h1 h2
        subst h1
        rw [h_land]
        decide)
  refine ⟨skip_broad_state .SpecialLanding
    (ActionBuilder.mk rest (cur + ad.length + 1) (some d)), ?_⟩
  simp only [parse_airdodge, hskip]
  simp only [peek, List.head?_cons, Option.map_some']
  rw [if_pos h_land]
  simp only [next_frame]
  simp only [finish_action,
    show (skip_broad_state .SpecialLanding
      (ActionBuilder.mk rest (cur + ad.length + 1) (some d))).action_init_data = some d from rfl]
  rfl

/-- Claim C7: an Airdodge run immediately followed by SpecialLanding
emits WavelandLeft when the landing frame horizontal velocity is below
minus 1 / 10, WavelandRight when above 1 / 10, and WavelandDown within
the epsilon band; the identical sequence reached from a JumpSquat run
through the Air courtesy window (fewer than 10 Air frames) emits
WavedashLeft, WavedashRight or WavedashDown respectively instead. -/
theorem C7_waveland_wavedash
    (ad : List Frame) (land : Frame) (rest : List Frame) (cur : Nat) (d : ActionInitData)
    (squats airs : List Frame) (cut : Rat)
    (h_ad : ad ≠ [])
    (h_ad_all : ∀ fr ∈ ad, broad_state fr.state = .Airdodge)
    (h_land : broad_state land.state = .SpecialLanding)
    (h_sq : squats ≠ [])
    (h_sq_all : ∀ fr ∈ squats, broad_state fr.state = .JumpSquat)
    (h_cut : JUMP_VELOCITIES.get? (squats.getLast h_sq).character.idx = some cut)
    (h_airs : ∀ fr ∈ airs, broad_state fr.state = .Air)
    (h_airs_len : airs.length < 10) :
    (∃ a b3, parse_airdodge (ActionBuilder.mk (ad ++ land :: rest) cur (some d))
        = .ok (some a, b3)
      ∧ a.action_taken
        = (if land.velocity.x < -(1 / 10 : Rat) then HighLevelAction.WavelandLeft
           else if land.velocity.x > (1 / 10 : Rat) then HighLevelAction.WavelandRight
           else HighLevelAction.WavelandDown))
    ∧ (∃ a b3, parse_jump_squat
          (ActionBuilder.mk (squats ++ (airs ++ (ad ++ land :: rest))) cur (some d))
        = .ok (some a, b3)
      ∧ a.action_taken
        = (if land.velocity.x < -(1 / 10 : Rat) then HighLevelAction.WavedashLeft
           else if land.velocity.x > (1 / 10 : Rat) then HighLevelAction.WavedashRight
           else HighLevelAction.WavedashDown)) := by
  constructor
  · obtain ⟨b3, hA⟩ := parse_airdodge_waveland ad land rest cur d h_ad_all h_land
    exact ⟨_, b3, hA, rfl⟩
  · obtain ⟨a0, adr, rfl⟩ : ∃ a0 adr, ad = a0 :: adr := by
      cases ad with
      | nil => exact absurd rfl h_ad
      | cons x l => exact ⟨x, l, rfl⟩
    have ha0 : broad_state a0.state = .Airdodge := h_ad_all a0 (by simp)
    obtain ⟨r0, rtail, heq, hr0⟩ :
        ∃ r0 rtail, airs ++ (a0 :: adr ++ land :: rest) = r0 :: rtail
          ∧ ¬ (broad_state r0.state = .JumpSquat) := by
      cases airs with
      | nil =>
        refine ⟨a0, adr ++ land :: rest, by simp, ?_⟩
        rw [ha0]
        decide
      | cons q qs =>
        refine ⟨q, qs ++ (a0 :: adr ++ land :: rest), by simp, ?_⟩
        rw [h_airs q (by simp)]
        decide
    rw [heq]
    have hjt := parse_jump_type_run squats r0 rtail cur (some d) h_sq h_sq_all hr0
    simp only [parse_jump_squat, hjt, jump_type_lookup, h_cut]
    have hcourt : skip_courtesy AIR_COURTESY
        (ActionBuilder.mk (r0 :: rtail) (cur + squats.length) (some d))
        = (if airs.length = 0 then .NoSkip else .SkipSome,
           ActionBuilder.mk (a0 :: adr ++ land :: rest)
             (cur + squats.length + airs.length) (some d)) := by
      rw [← heq]
      exact skip_courtesy_run AIR_COURTESY airs (a0 :: adr ++ land :: rest)
        (cur + squats.length) (some d) h_airs
        (by
          intro x r2 h
          injection h with h1 h2
          subst h1
          rw [ha0]
          decide)
        h_airs_len
    rw [hcourt]
    have hne : ¬ ((if airs.length = 0 then CourtesyReturn.NoSkip else CourtesyReturn.SkipSome)
        = CourtesyReturn.SkipMax) := by
      split_ifs <;> decide
    rw [if_neg hne]
    simp only [List.cons_append, peek, List.head?_cons, Option.map_some', ha0]
    obtain ⟨b3, hB⟩ := parse_airdodge_waveland (a0 :: adr) land rest
      (cur + squats.length + airs.length) d h_ad_all h_land
    simp only [List.cons_append] at hB
    simp only [parse_jump_squat_airdodge, hB]
    by_cases hx1 : land.velocity.x < -(1 / 10 : Rat)
    · simp only [if_pos hx1]
      exact ⟨_, b3, rfl, rfl⟩
    · by_cases hx2 : land.velocity.x > (1 / 10 : Rat)
      · simp only [if_neg hx1, if_pos hx2]
        exact ⟨_, b3, rfl, rfl⟩
      · simp only [if_neg hx1, if_neg hx2]
        exact ⟨_, b3, rfl, rfl⟩

/-- Claim C7 witness: one EscapeAir (Airdodge) frame, a LandingFallSpecial
(SpecialLanding) frame of horizontal velocity minus two, one KneeBend
(JumpSquat) frame of Mario (table entry present) and one Fall (Air)
courtesy frame. -/
theorem C7_waveland_wavedash_witness :
    (∃ a b3, parse_airdodge
        (ActionBuilder.mk ([mk_frame 236] ++ mk_frame_v 43 (-2) :: []) 0 (some c7_init))
        = .ok (some a, b3)
      ∧ a.action_taken
        = (if (mk_frame_v 43 (-2)).velocity.x < -(1 / 10 : Rat) then HighLevelAction.WavelandLeft
           else if (mk_frame_v 43 (-2)).velocity.x > (1 / 10 : Rat) then
             HighLevelAction.WavelandRight
           else HighLevelAction.WavelandDown))
    ∧ (∃ a b3, parse_jump_squat
          (ActionBuilder.mk ([mk_frame 24] ++ ([mk_frame 29]
            ++ ([mk_frame 236] ++ mk_frame_v 43 (-2) :: []))) 0 (some c7_init))
        = .ok (some a, b3)
      ∧ a.action_taken
        = (if (mk_frame_v 43 (-2)).velocity.x < -(1 / 10 : Rat) then HighLevelAction.WavedashLeft
           else if (mk_frame_v 43 (-2)).velocity.x > (1 / 10 : Rat) then
             HighLevelAction.WavedashRight
           else HighLevelAction.WavedashDown)) :=
  C7_waveland_wavedash [mk_frame 236] (mk_frame_v 43 (-2)) [] 0 c7_init
    [mk_frame 24] [mk_frame 29] 0
    (by decide) (by decide) (by decide) (by decide) (by decide) (by decide) (by decide)
    (by decide)

/-- One controlled unfolding step of the dispatcher on a known peeked
state (the inner parse_next applications stay folded). -/
theorem parse_next_eq (fuel : Nat) (b : ActionBuilder) (st : MeleeState)
    (hpeek : peek b = some st) :
    parse_next (fuel + 1) b
      = (match broad_state st with
        | .Attack => parse_attack b
        | .Air => parse_courtesy (parse_next fuel) b AIR_COURTESY .AirWait
        | .Airdodge => parse_airdodge b
        | .SpecialLanding => .ok (none, skip_broad_state .SpecialLanding b)
        | .Ground => parse_courtesy (parse_next fuel) b GROUND_COURTESY .GroundWait
        | .Walk => parse_walk (parse_next fuel) b
        | .DashRun => parse_dash (parse_next fuel) b
        | .Shield => parse_courtesy (parse_next fuel) b SHIELD_COURTESY .Shield
        | .Ledge => parse_ledge b
        | .LedgeAction => parse_ledge_action b
        | .Hitstun => parse_hitstun b
        | .GenericInactionable => .ok (none, skip_broad_state .GenericInactionable b)
        | .JumpSquat => parse_jump_squat b
        | .AirJump => parse_air_jump b
        | .Crouch => parse_courtesy (parse_next fuel) b CROUCH_COURTESY .Crouch
        | .Grab => parse_simple_action b .Grab .Grab
        | .Roll => parse_roll b
        | .Spotdodge => parse_simple_action b .Spotdodge .Spotdodge) := by
  rw [parse_next, hpeek]

set_option maxRecDepth 4000 in
/-- actionable_state never panics (the unreachable branches are dead). -/
theorem actionable_state_total (n : Nat) : ∃ r, actionable_state n = .ok r := by
  by_cases hn : n ≤ 340
  · have h : ∀ k, k < 341 → except_ok (actionable_state k) = true := by decide
    have hlt : n < 341 := by omega
    exact (except_ok_iff _).mp (h n hlt)
  · have hgt : n > 340 := by omega
    have hb : broad_state n = .GenericInactionable := by
      simp [broad_state, hgt]
    exact ⟨none, by simp [actionable_state, hb]⟩

/-- A Hitstun-broad frame is not actionable. -/
theorem actionable_hitstun (s : MeleeState) (h : broad_state s = .Hitstun) :
    actionable_state s = .ok none := by
  simp [actionable_state, h]

/-- An Air-broad frame is actionable as Air. -/
theorem actionable_air (s : MeleeState) (h : broad_state s = .Air) :
    actionable_state s = .ok (some .Air) := by
  simp [actionable_state, h]

/-- One controlled unfolding step of the top-level loop. -/
theorem parse_loop_eq (fuel : Nat) (b : ActionBuilder) :
    parse_loop (fuel + 1) b
      = (match b.frames with
        | [] => .ok []
        | fr :: _ =>
          match actionable_state fr.state with
          | .error e => .error e
          | .ok none => parse_loop fuel (next b).2
          | .ok (some _) =>
            match start_action b with
            | .error e => .error e
            | .ok b1 =>
              match parse_next (2 * b1.frames.length + 3) b1 with
              | .error e => .error e
              | .ok (some a, b2) =>
                match parse_loop fuel b2 with
                | .error e => .error e
                | .ok acts => .ok (a :: acts)
              | .ok (none, b2) => parse_loop fuel b2) := rfl

/-- The top-level loop advances one by one over a prefix of frames with
no actionable state, spending one unit of fuel per frame. -/
theorem parse_loop_unactionable_skips :
    ∀ (hs rest : List Frame) (cur : Nat) (init : Option ActionInitData) (fuel : Nat),
      (∀ fr ∈ hs, actionable_state fr.state = .ok none) →
      parse_loop (hs.length + fuel) (ActionBuilder.mk (hs ++ rest) cur init)
        = parse_loop fuel (ActionBuilder.mk rest (cur + hs.length) init) := by
  intro hs
  induction hs with
  | nil =>
    intro rest cur init fuel _
    simp
  | cons h0 hsl ih =>
    intro rest cur init fuel hall
    rw [show (h0 :: hsl).length + fuel = (hsl.length + fuel) + 1 by
      simp only [List.length_cons]; omega]
    simp only [parse_loop, List.cons_append]
    rw [hall h0 (by simp)]
    have hnext : (next (ActionBuilder.mk (h0 :: (hsl ++ rest)) cur init)).2
        = ActionBuilder.mk (hsl ++ rest) (cur + 1) init := rfl
    rw [hnext, ih rest (cur + 1) init fuel (fun a ha => hall a (by simp [ha]))]
    rw [show cur + 1 + hsl.length = cur + (h0 :: hsl).length by
      simp only [List.length_cons]; omega]

/-- The dispatcher on a one-frame actionable builder consumes the frame
and produces no action. -/
theorem parse_next_single (f : Frame) (cur : Nat) (jd : Option ActionInitData)
    (r : ActionableState) (hact : actionable_state f.state = .ok (some r)) :
    ∃ c2, parse_next 5 (ActionBuilder.mk [f] cur jd)
      = .ok (none, ActionBuilder.mk [] c2 jd) := by
  have hpeek : peek (ActionBuilder.mk [f] cur jd) = some f.state := rfl
  have hcourt : ∀ (c : Courtesy), broad_state f.state = c.state → 1 < c.timeout →
      skip_courtesy c (ActionBuilder.mk [f] cur jd)
        = (.SkipSome, ActionBuilder.mk [] (cur + 1) jd) := by
    intro c hc hto
    have := skip_courtesy_run c [f] [] cur jd (by simpa using hc)
      (by intro a r2 h; cases h) (by simpa using hto)
    simpa using this
  rw [show (5 : Nat) = 4 + 1 from rfl, parse_next_eq 4 _ f.state hpeek]
  cases hbs : broad_state f.state
  case Attack => simp [actionable_state, hbs] at hact
  case Air =>
    refine ⟨cur + 1, ?_⟩
    simp only [parse_courtesy, hcourt AIR_COURTESY hbs (by decide)]
    rfl
  case Airdodge => simp [actionable_state, hbs] at hact
  case SpecialLanding => simp [actionable_state, hbs] at hact
  case Ground =>
    refine ⟨cur + 1, ?_⟩
    simp only [parse_courtesy, hcourt GROUND_COURTESY hbs (by decide)]
    rfl
  case Walk =>
    refine ⟨cur + 1, ?_⟩
    simp only [parse_walk, next_frame]
    rfl
  case DashRun =>
    refine ⟨cur + 1, ?_⟩
    simp only [parse_dash, next_frame, parse_courtesy]
    rfl
  case Shield =>
    refine ⟨cur + 1, ?_⟩
    simp only [parse_courtesy, hcourt SHIELD_COURTESY hbs (by decide)]
    rfl
  case Ledge =>
    refine ⟨cur + 1, ?_⟩
    simp only [parse_ledge, hcourt LEDGE_COURTESY hbs (by decide)]
    rfl
  case LedgeAction => simp [actionable_state, hbs] at hact
  case Hitstun => simp [actionable_state, hbs] at hact
  case GenericInactionable => simp [actionable_state, hbs] at hact
  case JumpSquat => simp [actionable_state, hbs] at hact
  case AirJump =>
    refine ⟨cur + 1, ?_⟩
    simp only [parse_air_jump]
    rfl
  case Crouch =>
    refine ⟨cur + 1, ?_⟩
    simp only [parse_courtesy, hcourt CROUCH_COURTESY hbs (by decide)]
    rfl
  case Grab => simp [actionable_state, hbs] at hact
  case Roll => simp [actionable_state, hbs] at hact
  case Spotdodge => simp [actionable_state, hbs] at hact

/-- The top-level loop on a single remaining frame emits no action. -/
theorem parse_loop_single (f : Frame) (cur : Nat) (init : Option ActionInitData)
    (fuel : Nat) (hfuel : 2 ≤ fuel) :
    parse_loop fuel (ActionBuilder.mk [f] cur init) = .ok [] := by
  obtain ⟨k, rfl⟩ : ∃ k, fuel = k + 2 := ⟨fuel - 2, by omega⟩
  obtain ⟨r, hr⟩ := actionable_state_total f.state
  rw [show k + 2 = (k + 1) + 1 by omega]
  rw [parse_loop_eq]
  dsimp only
  rw [hr]
  cases r with
  | none =>
    dsimp only
    have hnext : (next (ActionBuilder.mk [f] cur init)).2
        = ActionBuilder.mk [] (cur + 1) init := rfl
    rw [hnext, parse_loop_eq]
  | some a =>
    dsimp only
    have hsa : start_action (ActionBuilder.mk [f] cur init)
        = .ok (ActionBuilder.mk [f] cur
            (some (ActionInitData.mk cur a f.position f.velocity))) := by
      simp [start_action, hr]
    rw [hsa]
    dsimp only
    obtain ⟨c2, hpn⟩ := parse_next_single f cur
      (some (ActionInitData.mk cur a f.position f.velocity)) a hr
    rw [show (2 * ([f] : List Frame).length + 3) = 5 from rfl, hpn]
    dsimp only
    rw [parse_loop_eq]

/-- One controlled unfolding step of the hitstun loop. -/
theorem parse_hitstun_loop_eq (fuel : Nat) (b : ActionBuilder) :
    parse_hitstun_loop (fuel + 1) b
      = (let b1 := skip_broad_state .Hitstun b
         let b2 :=
           if (peek_n HITSTUN_COURTESY.timeout b1).any
               (fun st => ! (broad_state st == HITSTUN_COURTESY.state))
           then skip_broad_state HITSTUN_COURTESY.state b1
           else b1
         if (peek b2).map broad_state = some BroadState.Hitstun then parse_hitstun_loop fuel b2
         else .ok b2) := rfl

/-- Claim C4 (amended): on a frame array made of a Hitstun run, a gap of
1 to 5 Air frames, a further Hitstun run and one final non-Hitstun frame,
segment emits exactly one Action of kind Hitstun; its span starts at the
first gap frame (the leading Hitstun run is not actionable, so the
top-level loop advances over it without covering it) and ends right after
the second Hitstun run, so the gap is absorbed into the single action. -/
theorem C4_hitstun_gap
    (hs gs bs : List Frame) (f : Frame)
    (h_hs : ∀ fr ∈ hs, broad_state fr.state = .Hitstun)
    (h_gs : ∀ fr ∈ gs, broad_state fr.state = .Air)
    (h_gs1 : 1 ≤ gs.length) (h_gs5 : gs.length ≤ 5)
    (h_bs : ∀ fr ∈ bs, broad_state fr.state = .Hitstun)
    (h_bs1 : 1 ≤ bs.length)
    (h_f : ¬ (broad_state f.state = .Hitstun)) :
    ∃ a, parse (hs ++ (gs ++ (bs ++ [f]))) = .ok [a]
      ∧ a.action_taken = .Hitstun
      ∧ a.frame_start = hs.length
      ∧ a.frame_end = hs.length + gs.length + bs.length := by
  obtain ⟨g0, gtail, rfl⟩ : ∃ g0 gtail, gs = g0 :: gtail := by
    cases gs with
    | nil => simp at h_gs1
    | cons x l => exact ⟨x, l, rfl⟩
  obtain ⟨b0, btail, rfl⟩ : ∃ b0 btail, bs = b0 :: btail := by
    cases bs with
    | nil => simp at h_bs1
    | cons x l => exact ⟨x, l, rfl⟩
  have hg0 : broad_state g0.state = .Air := h_gs g0 (by simp)
  have hb0 : broad_state b0.state = .Hitstun := h_bs b0 (by simp)
  simp only [parse]
  rw [show (hs ++ ((g0 :: gtail) ++ ((b0 :: btail) ++ [f]))).length + 1
      = hs.length + (gtail.length + btail.length + 4) by
    simp only [List.length_append, List.length_cons, List.length_nil]
    omega]
  rw [parse_loop_unactionable_skips hs ((g0 :: gtail) ++ ((b0 :: btail) ++ [f])) 0 none
    (gtail.length + btail.length + 4)
    (fun fr hmem => actionable_hitstun fr.state (h_hs fr hmem))]
  simp only [Nat.zero_add]
  rw [show gtail.length + btail.length + 4 = (gtail.length + btail.length + 3) + 1 by omega]
  rw [parse_loop_eq]
  simp only [List.cons_append]
  rw [actionable_air g0.state hg0]
  dsimp only
  have hsa : start_action (ActionBuilder.mk
        (g0 :: (gtail ++ (b0 :: (btail ++ [f])))) hs.length none)
      = .ok (ActionBuilder.mk (g0 :: (gtail ++ (b0 :: (btail ++ [f])))) hs.length
          (some (ActionInitData.mk hs.length ActionableState.Air g0.position g0.velocity))) := by
    simp [start_action, actionable_air g0.state hg0]
  rw [hsa]
  dsimp only
  rw [show 2 * (g0 :: (gtail ++ (b0 :: (btail ++ [f])))).length + 3
      = (2 * (g0 :: (gtail ++ (b0 :: (btail ++ [f])))).length + 2) + 1 by omega]
  rw [parse_next_eq (2 * (g0 :: (gtail ++ (b0 :: (btail ++ [f])))).length + 2)
    (ActionBuilder.mk (g0 :: (gtail ++ (b0 :: (btail ++ [f])))) hs.length
      (some (ActionInitData.mk hs.length ActionableState.Air g0.position g0.velocity)))
    g0.state rfl, hg0]
  dsimp only
  simp only [parse_courtesy]
  have hc0 := skip_courtesy_run AIR_COURTESY (g0 :: gtail) (b0 :: (btail ++ [f]))
    hs.length (some (ActionInitData.mk hs.length ActionableState.Air g0.position g0.velocity))
    h_gs
    (by
      intro x r2 h
      injection h with h1 h2
      subst h1
      rw [hb0]
      decide)
    (by
      show (g0 :: gtail).length < 10
      simp only [List.length_cons] at h_gs5 ⊢
      omega)
  simp only [List.cons_append] at hc0
  rw [hc0]
  rw [if_neg (by split_ifs <;> decide :
    ¬ ((if (g0 :: gtail).length = 0 then CourtesyReturn.NoSkip else CourtesyReturn.SkipSome)
      = CourtesyReturn.SkipMax))]
  rw [show 2 * (g0 :: (gtail ++ (b0 :: (btail ++ [f])))).length + 2
      = (2 * (g0 :: (gtail ++ (b0 :: (btail ++ [f])))).length + 1) + 1 by omega]
  rw [parse_next_eq (2 * (g0 :: (gtail ++ (b0 :: (btail ++ [f])))).length + 1)
    (ActionBuilder.mk (b0 :: (btail ++ [f])) (hs.length + (g0 :: gtail).length)
      (some (ActionInitData.mk hs.length ActionableState.Air g0.position g0.velocity)))
    b0.state rfl, hb0]
  dsimp only
  simp only [parse_hitstun]
  rw [show (ActionBuilder.mk (b0 :: (btail ++ [f]))
      (hs.length + (g0 :: gtail).length)
      (some (ActionInitData.mk hs.length ActionableState.Air g0.position
        g0.velocity))).frames.length + 1 = (btail.length + 2) + 1 by
    simp only [List.length_cons, List.length_append, List.length_nil]
    try omega]
  rw [show (btail.length + 2) + 1 = ((btail.length + 1) + 1) + 1 by omega]
  rw [parse_hitstun_loop_eq]
  have hskip1 := skip_broad_state_run .Hitstun (b0 :: btail) [f]
    (hs.length + (g0 :: gtail).length)
    (some (ActionInitData.mk hs.length ActionableState.Air g0.position g0.velocity))
    h_bs
    (by
      intro x r2 h
      injection h with h1 h2
      subst h1
      exact h_f)
  simp only [List.cons_append] at hskip1
  simp only [hskip1]
  have hb2eq : (if (peek_n HITSTUN_COURTESY.timeout
        (ActionBuilder.mk [f] (hs.length + (g0 :: gtail).length + (b0 :: btail).length)
          (some (ActionInitData.mk hs.length ActionableState.Air g0.position
            g0.velocity)))).any
        (fun st => ! (broad_state st == HITSTUN_COURTESY.state))
      then skip_broad_state HITSTUN_COURTESY.state
        (ActionBuilder.mk [f] (hs.length + (g0 :: gtail).length + (b0 :: btail).length)
          (some (ActionInitData.mk hs.length ActionableState.Air g0.position g0.velocity)))
      else (ActionBuilder.mk [f] (hs.length + (g0 :: gtail).length + (b0 :: btail).length)
        (some (ActionInitData.mk hs.length ActionableState.Air g0.position g0.velocity))))
      = ActionBuilder.mk [f] (hs.length + (g0 :: gtail).length + (b0 :: btail).length)
          (some (ActionInitData.mk hs.length ActionableState.Air g0.position g0.velocity)) := by
    by_cases hfa : broad_state f.state = .Air
    · have hcond : ¬ ((peek_n HITSTUN_COURTESY.timeout
          (ActionBuilder.mk [f] (hs.length + (g0 :: gtail).length + (b0 :: btail).length)
            (some (ActionInitData.mk hs.length ActionableState.Air g0.position
              g0.velocity)))).any
          (fun st => ! (broad_state st == HITSTUN_COURTESY.state)) = true) := by
        simp [peek_n, HITSTUN_COURTESY, hfa]
      rw [if_neg hcond]
    · have hcond : (peek_n HITSTUN_COURTESY.timeout
          (ActionBuilder.mk [f] (hs.length + (g0 :: gtail).length + (b0 :: btail).length)
            (some (ActionInitData.mk hs.length ActionableState.Air g0.position
              g0.velocity)))).any
          (fun st => ! (broad_state st == HITSTUN_COURTESY.state)) = true := by
        simp [peek_n, HITSTUN_COURTESY, hfa]
      rw [if_pos hcond]
      have := skip_broad_state_run HITSTUN_COURTESY.state [] [f]
        (hs.length + (g0 :: gtail).length + (b0 :: btail).length)
        (some (ActionInitData.mk hs.length ActionableState.Air g0.position g0.velocity))
        (by intro a ha; simp at ha)
        (by
          intro x r2 h
          injection h with h1 h2
          subst h1
          simpa [HITSTUN_COURTESY] using hfa)
      simpa using this
  rw [hb2eq]
  rw [if_neg (by
    simp only [peek, List.head?_cons, Option.map_some', Option.some.injEq]
    exact h_f)]
  simp only [finish_action, Except.map]
  rw [parse_loop_single f (hs.length + (g0 :: gtail).length + (b0 :: btail).length)
    (some (ActionInitData.mk hs.length ActionableState.Air g0.position g0.velocity))
    (gtail.length + btail.length + 3) (by omega)]
  refine ⟨_, rfl, rfl, rfl, ?_⟩
  simp only [List.length_cons]
  try omega

/-- Claim C4 witness: two leading DamageHi1 (Hitstun) frames, a one-Fall
gap, two more DamageHi1 frames and a final Wait (Ground) frame. -/
theorem C4_hitstun_gap_witness :
    ∃ a, parse ([mk_frame 75, mk_frame 75] ++ ([mk_frame 29]
        ++ ([mk_frame 75, mk_frame 75] ++ [mk_frame 14]))) = .ok [a]
      ∧ a.action_taken = .Hitstun
      ∧ a.frame_start = ([mk_frame 75, mk_frame 75] : List Frame).length
      ∧ a.frame_end = ([mk_frame 75, mk_frame 75] : List Frame).length
          + ([mk_frame 29] : List Frame).length
          + ([mk_frame 75, mk_frame 75] : List Frame).length :=
  C4_hitstun_gap [mk_frame 75, mk_frame 75] [mk_frame 29] [mk_frame 75, mk_frame 75]
    (mk_frame 14)
    (by decide) (by decide) (by decide) (by decide) (by decide) (by decide) (by decide)

/-- Claim C6 witness at n = 100, m = 500. -/
theorem C6_broad_state_total_witness :
    (LOOKUP.get? 100).isSome ∧ broad_state (from_u16 500) = .GenericInactionable :=
  C6_broad_state_total 100 500 (by decide) (by decide)

/-- Claim C9: into_u8 and from_u8 form a bidirectional table: decoding an
encoded action returns it, every code up to 63 decodes to an action that
encodes back to the same code, and codes of 64 and above decode to none. -/
theorem C9_u8_table (h : HighLevelAction) (n m : Nat) (hn : n ≤ 63) (hm : 64 ≤ m) :
    from_u8 (into_u8 h) = some h ∧ (from_u8 n).map into_u8 = some n ∧ from_u8 m = none := by
  refine ⟨?_, ?_, ?_⟩
  · cases h <;> first
      | rfl
      | (rename_i arg; cases arg <;> rfl)
  · have hb : ∀ k, k < 64 → (from_u8 k).map into_u8 = some k := by decide
    exact hb n (by omega)
  · have hk : m = (m - 64) + 64 := by omega
    rw [hk]
    have hnone : ∀ k, from_u8 (k + 64) = none := fun k => rfl
    exact hnone (m - 64)

/-- Claim C9 witness at h = Fullhop, n = 18, m = 200. -/
theorem C9_u8_table_witness :
    from_u8 (into_u8 .Fullhop) = some .Fullhop
    ∧ (from_u8 18).map into_u8 = some 18 ∧ from_u8 200 = none :=
  C9_u8_table .Fullhop 18 200 (by decide) (by decide)

set_option maxRecDepth 4000 in
/-- Claim C10: actionable_state never reaches its unreachable branches:
for every raw id it returns a normal result, every id whose broad_state is
DashRun is one of TurnRun, Dash, Run, RunDirect, RunBrake (19 to 23), and
every id whose broad_state is Ledge is CliffCatch or CliffWait (252 or
253); so the function is total into an optional ActionableState. -/
theorem C10_actionable_total (n : Nat) :
    (∃ r, actionable_state n = .ok r)
    ∧ (broad_state n = .DashRun → n = 19 ∨ n = 20 ∨ n = 21 ∨ n = 22 ∨ n = 23)
    ∧ (broad_state n = .Ledge → n = 252 ∨ n = 253) := by
  by_cases hn : n ≤ 340
  · have h : ∀ k, k < 341 →
        except_ok (actionable_state k) = true
        ∧ (broad_state k = .DashRun → k = 19 ∨ k = 20 ∨ k = 21 ∨ k = 22 ∨ k = 23)
        ∧ (broad_state k = .Ledge → k = 252 ∨ k = 253) := by
      decide
    have hlt : n < 341 := by omega
    obtain ⟨h1, h2, h3⟩ := h n hlt
    exact ⟨(except_ok_iff _).mp h1, h2, h3⟩
  · have hgt : n > 340 := by omega
    have hb : broad_state n = .GenericInactionable := by
      simp [broad_state, hgt]
    refine ⟨⟨none, ?_⟩, ?_, ?_⟩
    · simp [actionable_state, hb]
    · intro hcontra
      rw [hb] at hcontra
      exact absurd hcontra (by decide)
    · intro hcontra
      rw [hb] at hcontra
      exact absurd hcontra (by decide)

/-- Claim C2 counterexample: with the always-matching Air predicate, a cap
of 2 and two Air frames, skip_while_at_most returns 2 but has consumed
only one frame (one frame remains), so the returned count is not the
number of frames consumed. -/
theorem C2_counterexample :
    (skip_while_at_most (fun st => broad_state st == BroadState.Air) 2 c2_cap_builder).1 = 2
    ∧ (skip_while_at_most (fun st => broad_state st == BroadState.Air) 2
        c2_cap_builder).2.frames.length = 1 := by
  decide

/-- Claim C2 (amended): for every predicate and cap mx of at least 1,
skip_while_at_most returns the number of successful predicate checks (at
most mx); it consumes that many frames except when the count reaches the
cap, in which case it consumes mx - 1 frames, leaving the cursor on the
last matching frame; consequently skip_courtesy with timeout t run
against at least t consecutive frames of the courtesy BroadState returns
SkipMax having consumed exactly t - 1 frames. -/
theorem C2_skip_while_at_most (f : MeleeState → Bool) (mx : Nat) (b : ActionBuilder)
    (c : Courtesy) (b2 : ActionBuilder)
    (h1 : 1 ≤ mx) (h2 : 1 ≤ c.timeout) (h3 : c.timeout ≤ b2.frames.length)
    (h4 : ∀ fr ∈ b2.frames.take c.timeout, broad_state fr.state = c.state) :
    ((skip_while_at_most f mx b).1 ≤ mx
      ∧ (if (skip_while_at_most f mx b).1 = mx
         then (skip_while_at_most f mx b).2.frames.length + mx = b.frames.length + 1
         else (skip_while_at_most f mx b).2.frames.length + (skip_while_at_most f mx b).1
              = b.frames.length)
      ∧ (skip_while_at_most f mx b).2.cur_frame + (skip_while_at_most f mx b).2.frames.length
        = b.cur_frame + b.frames.length)
    ∧ (skip_courtesy c b2).1 = .SkipMax
    ∧ (skip_courtesy c b2).2.frames.length + c.timeout = b2.frames.length + 1
    ∧ (skip_courtesy c b2).2.cur_frame = b2.cur_frame + (c.timeout - 1) := by
  constructor
  · obtain ⟨e1, e2, e3⟩ := swam_aux_spec f mx b.frames 0 (by omega)
    simp only [skip_while_at_most]
    refine ⟨e2, ?_, by omega⟩
    split_ifs at e3 ⊢ with hc
    · omega
    · omega
  · have hcap := swam_aux_cap_run (fun st => broad_state st == c.state)
      b2.frames c.timeout 0 (by omega) (by simpa using h3)
      (by
        intro a ha
        simp only [Nat.sub_zero] at ha
        simp [h4 a ha])
    simp only [Nat.sub_zero] at hcap
    have hsc : skip_courtesy c b2
        = (.SkipMax, { frames := b2.frames.drop (c.timeout - 1),
                       cur_frame := b2.cur_frame + (c.timeout - 1),
                       action_init_data := b2.action_init_data }) := by
      simp only [skip_courtesy, skip_while_at_most, hcap]
      rw [if_pos trivial]
    rw [hsc]
    dsimp only
    have hdl : (b2.frames.drop (c.timeout - 1)).length = b2.frames.length - (c.timeout - 1) := by
      simp
    exact ⟨rfl, by omega, rfl⟩

/-- Claim C2 witness: the always-true predicate with cap 3 on four Air
frames, and the Air courtesy with timeout 3 on the same builder. -/
theorem C2_skip_while_at_most_witness :
    (((skip_while_at_most (fun _ => true) 3 c2_builder).1 ≤ 3
      ∧ (if (skip_while_at_most (fun _ => true) 3 c2_builder).1 = 3
         then (skip_while_at_most (fun _ => true) 3 c2_builder).2.frames.length + 3
            = c2_builder.frames.length + 1
         else (skip_while_at_most (fun _ => true) 3 c2_builder).2.frames.length
              + (skip_while_at_most (fun _ => true) 3 c2_builder).1
            = c2_builder.frames.length)
      ∧ (skip_while_at_most (fun _ => true) 3 c2_builder).2.cur_frame
          + (skip_while_at_most (fun _ => true) 3 c2_builder).2.frames.length
        = c2_builder.cur_frame + c2_builder.frames.length)
    ∧ (skip_courtesy c2_courtesy c2_builder).1 = .SkipMax
    ∧ (skip_courtesy c2_courtesy c2_builder).2.frames.length + c2_courtesy.timeout
      = c2_builder.frames.length + 1
    ∧ (skip_courtesy c2_courtesy c2_builder).2.cur_frame
      = c2_builder.cur_frame + (c2_courtesy.timeout - 1)) :=
  C2_skip_while_at_most (fun _ => true) 3 c2_builder c2_courtesy c2_builder
    (by decide) (by decide) (by decide) (by decide)

/-- Claim C10 witness at n = 20 (the Dash id). -/
theorem C10_actionable_total_witness :
    (∃ r, actionable_state 20 = .ok r)
    ∧ (broad_state 20 = .DashRun → 20 = 19 ∨ 20 = 20 ∨ 20 = 21 ∨ 20 = 22 ∨ 20 = 23)
    ∧ (broad_state 20 = .Ledge → 20 = 252 ∨ 20 = 253) :=
  C10_actionable_total 20

/-- A peeked state exposes the head frame of the builder. -/
theorem peek_some (b : ActionBuilder) (st : MeleeState) (h : peek b = some st) :
    ∃ fr rest, b.frames = fr :: rest ∧ fr.state = st := by
  cases hf : b.frames with
  | nil => rw [peek, hf] at h; simp at h
  | cons fr rest =>
    rw [peek, hf] at h
    simp only [List.head?_cons, Option.map_some', Option.some.injEq] at h
    exact ⟨fr, rest, rfl, h⟩

/-- next_frame on a builder with a head frame consumes exactly it. -/
theorem next_frame_cons (b : ActionBuilder) (fr : Frame) (rest : List Frame)
    (h : b.frames = fr :: rest) :
    next_frame b
      = (some fr, ActionBuilder.mk rest (b.cur_frame + 1) b.action_init_data) := by
  obtain ⟨frames, cur, init⟩ := b
  dsimp only at h
  subst h
  rfl

/-- The builder after next, on a builder with a head frame. -/
theorem next_snd_cur (b : ActionBuilder) (fr : Frame) (rest : List Frame)
    (h : b.frames = fr :: rest) :
    (next b).2 = ActionBuilder.mk rest (b.cur_frame + 1) b.action_init_data := by
  rw [next, next_frame_cons b fr rest h]

/-- The uncapped skip loop consumes exactly the difference of lengths. -/
theorem skip_while_aux_len (f : MeleeState → Bool) :
    ∀ l : List Frame,
      (skip_while_aux f l).2 + (skip_while_aux f l).1.length = l.length := by
  intro l
  induction l with
  | nil => simp [skip_while_aux]
  | cons fr rest ih =>
    by_cases hf : f fr.state
    · simp only [skip_while_aux, hf, if_true]
      simp only [List.length_cons]
      omega
    · simp [skip_while_aux, hf]

/-- skip_while only moves the cursor forward, by exactly the number of
frames it drops, and leaves the pending snapshot alone. -/
theorem skip_while_adv (f : MeleeState → Bool) (b : ActionBuilder) :
    b.cur_frame ≤ (skip_while f b).cur_frame
    ∧ (skip_while f b).cur_frame + (skip_while f b).frames.length
        = b.cur_frame + b.frames.length
    ∧ (skip_while f b).action_init_data = b.action_init_data := by
  have h := skip_while_aux_len f b.frames
  simp only [skip_while]
  exact ⟨by omega, by omega, trivial⟩

/-- skip_broad_state only moves the cursor forward, balanced against the
dropped frames, preserving the pending snapshot. -/
theorem skip_broad_state_adv (bs : BroadState) (b : ActionBuilder) :
    b.cur_frame ≤ (skip_broad_state bs b).cur_frame
    ∧ (skip_broad_state bs b).cur_frame + (skip_broad_state bs b).frames.length
        = b.cur_frame + b.frames.length
    ∧ (skip_broad_state bs b).action_init_data = b.action_init_data :=
  skip_while_adv _ b

/-- skip_while on a matching head consumes at least one frame. -/
theorem skip_while_pos (f : MeleeState → Bool) (b : ActionBuilder) (fr : Frame)
    (rest : List Frame) (hf : b.frames = fr :: rest) (hp : f fr.state = true) :
    b.cur_frame + 1 ≤ (skip_while f b).cur_frame := by
  simp only [skip_while, hf, skip_while_aux, hp, if_true]
  omega

/-- skip_broad_state on a matching head consumes at least one frame. -/
theorem skip_broad_state_pos (bs : BroadState) (b : ActionBuilder) (fr : Frame)
    (rest : List Frame) (hf : b.frames = fr :: rest)
    (hp : broad_state fr.state = bs) :
    b.cur_frame + 1 ≤ (skip_broad_state bs b).cur_frame :=
  skip_while_pos _ b fr rest hf (by simp [hp])

/-- skip_while on a non-matching head is the identity. -/
theorem skip_while_stop (f : MeleeState → Bool) (b : ActionBuilder) (fr : Frame)
    (rest : List Frame) (hf : b.frames = fr :: rest) (hp : f fr.state = false) :
    skip_while f b = b := by
  obtain ⟨frames, cur, init⟩ := b
  dsimp only at hf
  subst hf
  simp [skip_while, skip_while_aux, hp]

/-- A conditional skip_broad_state only moves the cursor forward,
balanced, preserving the snapshot. -/
theorem skip_if_adv (c : Bool) (bs : BroadState) (b1 : ActionBuilder) :
    b1.cur_frame ≤ (if c then skip_broad_state bs b1 else b1).cur_frame
    ∧ (if c then skip_broad_state bs b1 else b1).cur_frame
        + (if c then skip_broad_state bs b1 else b1).frames.length
        = b1.cur_frame + b1.frames.length
    ∧ (if c then skip_broad_state bs b1 else b1).action_init_data
        = b1.action_init_data := by
  cases c
  · exact ⟨le_rfl, rfl, rfl⟩
  · exact skip_broad_state_adv bs b1

/-- skip_courtesy only moves the cursor forward, balanced against the
dropped frames, preserving the snapshot. -/
theorem skip_courtesy_adv (c : Courtesy) (b : ActionBuilder) (h : 0 < c.timeout) :
    b.cur_frame ≤ (skip_courtesy c b).2.cur_frame
    ∧ (skip_courtesy c b).2.cur_frame + (skip_courtesy c b).2.frames.length
        = b.cur_frame + b.frames.length
    ∧ (skip_courtesy c b).2.action_init_data = b.action_init_data := by
  obtain ⟨e1, _, _⟩ :=
    swam_aux_spec (fun st => broad_state st == c.state) c.timeout b.frames 0 h
  simp only [skip_courtesy, skip_while_at_most]
  exact ⟨by omega, by omega, trivial⟩

/-- A SkipMax return of skip_courtesy with a timeout above one has
consumed at least one frame. -/
theorem skip_courtesy_max_pos (c : Courtesy) (b : ActionBuilder)
    (hto : 1 < c.timeout) (hmax : (skip_courtesy c b).1 = .SkipMax) :
    b.cur_frame + 1 ≤ (skip_courtesy c b).2.cur_frame := by
  obtain ⟨e1, e2, e3⟩ :=
    swam_aux_spec (fun st => broad_state st == c.state) c.timeout b.frames 0 (by omega)
  simp only [skip_courtesy, skip_while_at_most] at hmax ⊢
  by_cases h1 : (swam_aux (fun st => broad_state st == c.state) c.timeout b.frames 0).2.1
      = c.timeout
  · rw [if_pos h1] at e3
    omega
  · rw [if_neg h1] at hmax
    rw [if_neg h1] at e3
    by_cases h2 : (swam_aux (fun st => broad_state st == c.state) c.timeout b.frames 0).2.1
        = 0
    · rw [if_pos h2] at hmax
      exact absurd hmax (by decide)
    · rw [if_neg h2] at hmax
      exact absurd hmax (by decide)

/-- skip_courtesy on a head frame matching the courtesy state consumes at
least one frame whenever the timeout is above one. -/
theorem skip_courtesy_head_pos (c : Courtesy) (b : ActionBuilder) (fr : Frame)
    (rest : List Frame) (hfr : b.frames = fr :: rest)
    (hmatch : broad_state fr.state = c.state) (hto : 1 < c.timeout) :
    b.cur_frame + 1 ≤ (skip_courtesy c b).2.cur_frame := by
  simp only [skip_courtesy, skip_while_at_most]
  rw [hfr]
  rw [swam_aux_cons_rec _ c.timeout fr rest 0 (by simp [hmatch]) (by omega)]
  dsimp only
  omega

/-- finish_action succeeds only with a pending snapshot, and stamps the
action with the snapshot origin and the current cursor. -/
theorem finish_action_ok (b : ActionBuilder) (hla : HighLevelAction) (a : Action)
    (h : finish_action b hla = .ok a) :
    ∃ d, b.action_init_data = some d ∧ a.frame_start = d.action_start
      ∧ a.frame_end = b.cur_frame := by
  cases hd : b.action_init_data with
  | none => rw [finish_action, hd] at h; exact Except.noConfusion h
  | some d =>
    rw [finish_action, hd] at h
    injection h with h2
    subst h2
    exact ⟨d, rfl, rfl, rfl⟩

/-- The common handler tail mapping a finished action onto a pair: a
normal return forces the builder and yields a finished action. -/
theorem finish_map_ok (b2 : ActionBuilder) (hla : HighLevelAction)
    (oa : Option Action) (b3 : ActionBuilder)
    (h : (finish_action b2 hla).map (fun a => (some a, b2)) = .ok (oa, b3)) :
    b3 = b2 ∧ ∃ a, oa = some a ∧ finish_action b2 hla = .ok a := by
  cases hf : finish_action b2 hla with
  | error e =>
    rw [hf] at h
    dsimp only [Except.map] at h
    exact Except.noConfusion h
  | ok a =>
    rw [hf] at h
    dsimp only [Except.map] at h
    injection h with h2
    injection h2 with h3 h4
    exact ⟨h4.symm, a, h3.symm, rfl⟩

/-- Soundness of the handler tail: finishing at a builder that only moved
forward, balanced and snapshot-preserving, satisfies the Advances
contract. -/
theorem finish_pattern_adv (b b2 : ActionBuilder) (hla : HighLevelAction)
    (hmono : b.cur_frame ≤ b2.cur_frame)
    (hbal : b2.cur_frame + b2.frames.length = b.cur_frame + b.frames.length)
    (hinit : b2.action_init_data = b.action_init_data) :
    Advances b ((finish_action b2 hla).map (fun a => (some a, b2))) := by
  intro oa b3 h
  obtain ⟨hb3, a, hoa, hfin⟩ := finish_map_ok b2 hla oa b3 h
  subst hb3
  subst hoa
  obtain ⟨d, hd, hfs, hfe⟩ := finish_action_ok b3 hla a hfin
  refine ⟨⟨hmono, hbal, hinit⟩, ?_⟩
  intro a2 ha2
  injection ha2 with ha3
  subst ha3
  exact ⟨⟨d, by rw [← hinit]; exact hd, hfs⟩, hfe⟩

/-- Strictness of the handler tail: finishing at a strictly advanced
builder emits an action ending strictly after the entry cursor. -/
theorem finish_pattern_strict (b b2 : ActionBuilder) (hla : HighLevelAction)
    (hlt : b.cur_frame < b2.cur_frame) :
    StrictAfter b ((finish_action b2 hla).map (fun a => (some a, b2))) := by
  intro a b3 h
  obtain ⟨hb3, a2, hoa, hfin⟩ := finish_map_ok b2 hla (some a) b3 h
  injection hoa with ha
  subst ha
  obtain ⟨d, hd, hfs, hfe⟩ := finish_action_ok b2 hla a hfin
  rw [hfe]
  exact hlt

/-- An actionless normal return advancing to a balanced builder satisfies
the Advances contract. -/
theorem none_adv (b b2 : ActionBuilder)
    (hmono : b.cur_frame ≤ b2.cur_frame)
    (hbal : b2.cur_frame + b2.frames.length = b.cur_frame + b.frames.length)
    (hinit : b2.action_init_data = b.action_init_data) :
    Advances b (.ok (none, b2)) := by
  intro oa b3 h
  injection h with h2
  injection h2 with h3 h4
  subst h4
  refine ⟨⟨hmono, hbal, hinit⟩, ?_⟩
  intro a ha
  rw [← h3] at ha
  exact Option.noConfusion ha

/-- An actionless return is vacuously strict. -/
theorem none_strict (b b2 : ActionBuilder) : StrictAfter b (.ok (none, b2)) := by
  intro a b3 h
  injection h with h2
  injection h2 with h3 h4
  exact Option.noConfusion h3

/-- A panic satisfies the Advances contract vacuously. -/
theorem error_adv (b : ActionBuilder) (e : PanicKind) : Advances b (.error e) := by
  intro oa b2 h
  exact Except.noConfusion h

/-- A panic is vacuously strict. -/
theorem error_strict (b : ActionBuilder) (e : PanicKind) :
    StrictAfter b (.error e) := by
  intro a b2 h
  exact Except.noConfusion h

/-- Prepending a forward, balanced, snapshot-preserving builder step keeps
the Advances contract. -/
theorem adv_step (b b1 : ActionBuilder) (r : PResult)
    (hm : b.cur_frame ≤ b1.cur_frame)
    (hb : b1.cur_frame + b1.frames.length = b.cur_frame + b.frames.length)
    (hi : b1.action_init_data = b.action_init_data)
    (h : Advances b1 r) : Advances b r := by
  intro oa b2 hr
  obtain ⟨⟨m2, b2e, i2⟩, hact⟩ := h oa b2 hr
  refine ⟨⟨by omega, by omega, by rw [i2, hi]⟩, ?_⟩
  intro a ha
  obtain ⟨⟨d, hd, hfs⟩, hfe⟩ := hact a ha
  exact ⟨⟨d, by rw [← hi]; exact hd, hfs⟩, hfe⟩

/-- Prepending a forward builder step keeps strictness. -/
theorem strict_step (b b1 : ActionBuilder) (r : PResult)
    (hm : b.cur_frame ≤ b1.cur_frame) (hs : StrictAfter b1 r) :
    StrictAfter b r := by
  intro a b2 hr
  exact lt_of_le_of_lt hm (hs a b2 hr)

/-- A strictly advanced builder step makes any emitted action strict even
without inner strictness, because emitted actions end at or after the
inner entry cursor. -/
theorem strict_of_progress (b b1 : ActionBuilder) (r : PResult)
    (hlt : b.cur_frame < b1.cur_frame) (hadv : Advances b1 r) :
    StrictAfter b r := by
  intro a b2 hr
  obtain ⟨⟨m2, _, _⟩, hact⟩ := hadv (some a) b2 hr
  obtain ⟨_, hfe⟩ := hact a rfl
  omega

/-- Ids outside the transmuted range have no attack classification. -/
theorem attack_type_none_of_large (s : MeleeState) (hs : 341 ≤ s) :
    attack_type s = none := by
  unfold attack_type
  rw [if_neg (show ¬(s = 44 ∨ s = 45 ∨ s = 46 ∨ s = 47 ∨ s = 48 ∨ s = 49) by
    rintro (rfl | rfl | rfl | rfl | rfl | rfl) <;> exact absurd hs (by decide))]
  rw [if_neg (show ¬(s = 50) by rintro rfl; exact absurd hs (by decide))]
  rw [if_neg (show ¬(s = 51 ∨ s = 52 ∨ s = 53 ∨ s = 54 ∨ s = 55) by
    rintro (rfl | rfl | rfl | rfl | rfl) <;> exact absurd hs (by decide))]
  rw [if_neg (show ¬(s = 56) by rintro rfl; exact absurd hs (by decide))]
  rw [if_neg (show ¬(s = 57) by rintro rfl; exact absurd hs (by decide))]
  rw [if_neg (show ¬(s = 58 ∨ s = 59 ∨ s = 60 ∨ s = 61 ∨ s = 62) by
    rintro (rfl | rfl | rfl | rfl | rfl) <;> exact absurd hs (by decide))]
  rw [if_neg (show ¬(s = 63) by rintro rfl; exact absurd hs (by decide))]
  rw [if_neg (show ¬(s = 64) by rintro rfl; exact absurd hs (by decide))]
  rw [if_neg (show ¬(s = 65) by rintro rfl; exact absurd hs (by decide))]
  rw [if_neg (show ¬(s = 66) by rintro rfl; exact absurd hs (by decide))]
  rw [if_neg (show ¬(s = 67) by rintro rfl; exact absurd hs (by decide))]
  rw [if_neg (show ¬(s = 68) by rintro rfl; exact absurd hs (by decide))]
  rw [if_neg (show ¬(s = 69) by rintro rfl; exact absurd hs (by decide))]

set_option maxRecDepth 4000 in
/-- Every state classified by attack_type is Attack-broad. -/
theorem attack_type_broad (s : MeleeState) (t : AttackType)
    (h : attack_type s = some t) : broad_state s = .Attack := by
  have hlt : s < 341 := by
    rcases Nat.lt_or_ge s 341 with h2 | h2
    · exact h2
    · rw [attack_type_none_of_large s h2] at h
      exact Option.noConfusion h
  have hball : ∀ k, k < 341 → ((attack_type k).isSome → broad_state k = .Attack) := by
    decide
  exact hball s hlt (by rw [h]; rfl)

/-- Ids outside the transmuted range have no ledge-action classification. -/
theorem ledge_action_none_of_large (s : MeleeState) (hs : 341 ≤ s) :
    ledge_action s = none := by
  unfold ledge_action
  rw [if_neg (show ¬(s = MeleeState.CliffClimbSlow ∨ s = MeleeState.CliffClimbQuick) by
    rintro (rfl | rfl) <;> exact absurd hs (by decide))]
  rw [if_neg (show ¬(s = MeleeState.CliffAttackSlow ∨ s = MeleeState.CliffAttackQuick) by
    rintro (rfl | rfl) <;> exact absurd hs (by decide))]
  rw [if_neg (show ¬(s = MeleeState.CliffEscapeSlow ∨ s = MeleeState.CliffEscapeQuick) by
    rintro (rfl | rfl) <;> exact absurd hs (by decide))]
  rw [if_neg (show ¬(s = MeleeState.CliffJumpSlow1 ∨ s = MeleeState.CliffJumpSlow2
      ∨ s = MeleeState.CliffJumpQuick1 ∨ s = MeleeState.CliffJumpQuick2) by
    rintro (rfl | rfl | rfl | rfl) <;> exact absurd hs (by decide))]

set_option maxRecDepth 4000 in
/-- Every state classified by ledge_action is LedgeAction-broad. -/
theorem ledge_action_broad (s : MeleeState) (la : LedgeAction)
    (h : ledge_action s = some la) : broad_state s = .LedgeAction := by
  have hlt : s < 341 := by
    rcases Nat.lt_or_ge s 341 with h2 | h2
    · exact h2
    · rw [ledge_action_none_of_large s h2] at h
      exact Option.noConfusion h
  have hball : ∀ k, k < 341 →
      ((ledge_action k).isSome → broad_state k = .LedgeAction) := by
    decide
  exact hball s hlt (by rw [h]; rfl)

/-- parse_attack_to_end only moves the cursor forward, balanced,
snapshot-preserving, and strictly forward when it classifies an attack. -/
theorem parse_attack_to_end_adv (b : ActionBuilder) :
    b.cur_frame ≤ (parse_attack_to_end b).2.cur_frame
    ∧ (parse_attack_to_end b).2.cur_frame + (parse_attack_to_end b).2.frames.length
        = b.cur_frame + b.frames.length
    ∧ (parse_attack_to_end b).2.action_init_data = b.action_init_data
    ∧ (∀ atk, (parse_attack_to_end b).1 = some atk →
        b.cur_frame < (parse_attack_to_end b).2.cur_frame) := by
  unfold parse_attack_to_end
  cases hpk : peek b with
  | none =>
    dsimp only
    exact ⟨le_rfl, rfl, rfl, fun atk hx => Option.noConfusion hx⟩
  | some st =>
    dsimp only
    cases hat : attack_type st with
    | none =>
      dsimp only
      exact ⟨le_rfl, rfl, rfl, fun atk hx => Option.noConfusion hx⟩
    | some atk =>
      dsimp only
      obtain ⟨m1, e1, i1⟩ := skip_broad_state_adv .Attack b
      obtain ⟨fr, rest, hfr, hst⟩ := peek_some b st hpk
      have hpos := skip_broad_state_pos .Attack b fr rest hfr
        (by rw [hst]; exact attack_type_broad st atk hat)
      exact ⟨m1, e1, i1, fun _ _ => by omega⟩

/-- parse_attack satisfies the handler contracts. -/
theorem parse_attack_adv (b : ActionBuilder) :
    Advances b (parse_attack b) ∧ StrictAfter b (parse_attack b) := by
  unfold parse_attack
  have hA := parse_attack_to_end_adv b
  cases hate : parse_attack_to_end b with
  | mk oatk b2 =>
  rw [hate] at hA
  dsimp only at hA
  obtain ⟨m1, e1, i1, hpos⟩ := hA
  cases oatk with
  | none =>
    dsimp only
    exact ⟨none_adv _ _ m1 e1 i1, none_strict _ _⟩
  | some atk =>
    dsimp only
    exact ⟨finish_pattern_adv b _ _ m1 e1 i1,
           finish_pattern_strict b _ _ (hpos atk rfl)⟩

/-- parse_simple_action satisfies the Advances contract, and is strict
when the head frame matches the skipped broad state. -/
theorem parse_simple_action_adv (b : ActionBuilder) (bs : BroadState)
    (hla : HighLevelAction) :
    Advances b (parse_simple_action b bs hla)
    ∧ (∀ fr rest, b.frames = fr :: rest → broad_state fr.state = bs →
        StrictAfter b (parse_simple_action b bs hla)) := by
  unfold parse_simple_action
  obtain ⟨m1, e1, i1⟩ := skip_broad_state_adv bs b
  refine ⟨finish_pattern_adv b _ _ m1 e1 i1, ?_⟩
  intro fr rest hfr hbs
  have hpos := skip_broad_state_pos bs b fr rest hfr hbs
  exact finish_pattern_strict b _ _ (by omega)

/-- Unfolding parse_roll on a builder with a head frame. -/
theorem parse_roll_cons (f : Frame) (rest : List Frame) (cur : Nat)
    (init : Option ActionInitData) :
    parse_roll (ActionBuilder.mk (f :: rest) cur init)
      = (if f.state = MeleeState.EscapeF
         then parse_simple_action (ActionBuilder.mk rest (cur + 1) init) .Roll .RollForward
         else if f.state = MeleeState.EscapeB
         then parse_simple_action (ActionBuilder.mk rest (cur + 1) init) .Roll .RollBackward
         else .ok (none, ActionBuilder.mk rest (cur + 1) init)) := rfl

/-- parse_roll satisfies the handler contracts. -/
theorem parse_roll_adv (b : ActionBuilder) :
    Advances b (parse_roll b) ∧ StrictAfter b (parse_roll b) := by
  obtain ⟨frames, cur, init⟩ := b
  cases frames with
  | nil => exact ⟨none_adv _ _ le_rfl rfl rfl, none_strict _ _⟩
  | cons f rest =>
    rw [parse_roll_cons]
    have hm : (ActionBuilder.mk (f :: rest) cur init).cur_frame
        ≤ (ActionBuilder.mk rest (cur + 1) init).cur_frame := by
      dsimp only
      omega
    have hb : (ActionBuilder.mk rest (cur + 1) init).cur_frame
          + (ActionBuilder.mk rest (cur + 1) init).frames.length
        = (ActionBuilder.mk (f :: rest) cur init).cur_frame
          + (ActionBuilder.mk (f :: rest) cur init).frames.length := by
      dsimp only
      simp only [List.length_cons]
      omega
    have hlt : (ActionBuilder.mk (f :: rest) cur init).cur_frame
        < (ActionBuilder.mk rest (cur + 1) init).cur_frame := by
      dsimp only
      omega
    split_ifs with h1 h2
    · obtain ⟨hA, _⟩ :=
        parse_simple_action_adv (ActionBuilder.mk rest (cur + 1) init) .Roll .RollForward
      exact ⟨adv_step _ _ _ hm hb rfl hA, strict_of_progress _ _ _ hlt hA⟩
    · obtain ⟨hA, _⟩ :=
        parse_simple_action_adv (ActionBuilder.mk rest (cur + 1) init) .Roll .RollBackward
      exact ⟨adv_step _ _ _ hm hb rfl hA, strict_of_progress _ _ _ hlt hA⟩
    · exact ⟨none_adv _ _ hm hb rfl, none_strict _ _⟩

/-- parse_ledge_action satisfies the handler contracts. -/
theorem parse_ledge_action_adv (b : ActionBuilder) :
    Advances b (parse_ledge_action b) ∧ StrictAfter b (parse_ledge_action b) := by
  unfold parse_ledge_action
  cases hpk : peek b with
  | none =>
    dsimp only
    exact ⟨none_adv _ _ le_rfl rfl rfl, none_strict _ _⟩
  | some st =>
    dsimp only
    cases hla : ledge_action st with
    | none =>
      dsimp only
      exact ⟨none_adv _ _ le_rfl rfl rfl, none_strict _ _⟩
    | some la =>
      dsimp only
      obtain ⟨m1, e1, i1⟩ := skip_broad_state_adv .LedgeAction b
      obtain ⟨fr, rest, hfr, hst⟩ := peek_some b st hpk
      have hpos := skip_broad_state_pos .LedgeAction b fr rest hfr
        (by rw [hst]; exact ledge_action_broad st la hla)
      exact ⟨finish_pattern_adv b _ _ m1 e1 i1,
             finish_pattern_strict b _ _ (by omega)⟩

/-- One step of the hitstun loop reaches a forward, balanced,
snapshot-preserving intermediate builder at or past the skipped Hitstun
run, then either recurses on it or returns it. -/
theorem parse_hitstun_loop_succ (fuel : Nat) (b : ActionBuilder) :
    ∃ bmid, (b.cur_frame ≤ bmid.cur_frame
        ∧ bmid.cur_frame + bmid.frames.length = b.cur_frame + b.frames.length
        ∧ bmid.action_init_data = b.action_init_data)
      ∧ (skip_broad_state .Hitstun b).cur_frame ≤ bmid.cur_frame
      ∧ parse_hitstun_loop (fuel + 1) b
          = (if (peek bmid).map broad_state = some BroadState.Hitstun
             then parse_hitstun_loop fuel bmid else .ok bmid) := by
  by_cases hC : (peek_n HITSTUN_COURTESY.timeout (skip_broad_state BroadState.Hitstun b)).any
      (fun st => ! (broad_state st == HITSTUN_COURTESY.state)) = true
  · obtain ⟨mA, eA, iA⟩ := skip_broad_state_adv BroadState.Hitstun b
    obtain ⟨mB, eB, iB⟩ :=
      skip_broad_state_adv HITSTUN_COURTESY.state (skip_broad_state BroadState.Hitstun b)
    refine ⟨skip_broad_state HITSTUN_COURTESY.state (skip_broad_state BroadState.Hitstun b),
      ⟨by omega, by omega, by rw [iB, iA]⟩, mB, ?_⟩
    rw [parse_hitstun_loop_eq]
    dsimp only
    rw [if_pos hC]
  · obtain ⟨mA, eA, iA⟩ := skip_broad_state_adv BroadState.Hitstun b
    refine ⟨skip_broad_state BroadState.Hitstun b, ⟨mA, eA, iA⟩, le_rfl, ?_⟩
    rw [parse_hitstun_loop_eq]
    dsimp only
    rw [if_neg hC]

/-- A normal return of the hitstun loop only moved the cursor forward,
balanced, snapshot-preserving. -/
theorem parse_hitstun_loop_adv :
    ∀ (fuel : Nat) (b b2 : ActionBuilder), parse_hitstun_loop fuel b = .ok b2 →
      b.cur_frame ≤ b2.cur_frame
      ∧ b2.cur_frame + b2.frames.length = b.cur_frame + b.frames.length
      ∧ b2.action_init_data = b.action_init_data := by
  intro fuel
  induction fuel with
  | zero =>
    intro b b2 h
    exact Except.noConfusion h
  | succ fuel ih =>
    intro b b2 h
    obtain ⟨bmid, ⟨m1, e1, i1⟩, _, heq⟩ := parse_hitstun_loop_succ fuel b
    rw [heq] at h
    by_cases hrec : (peek bmid).map broad_state = some BroadState.Hitstun
    · rw [if_pos hrec] at h
      obtain ⟨m2, e2, i2⟩ := ih bmid b2 h
      exact ⟨by omega, by omega, by rw [i2, i1]⟩
    · rw [if_neg hrec] at h
      injection h with h2
      subst h2
      exact ⟨m1, e1, i1⟩

/-- The hitstun loop on a Hitstun-broad head frame consumes at least one
frame before returning. -/
theorem parse_hitstun_loop_pos (fuel : Nat) (b b2 : ActionBuilder) (fr : Frame)
    (rest : List Frame) (hfr : b.frames = fr :: rest)
    (hbs : broad_state fr.state = .Hitstun)
    (h : parse_hitstun_loop fuel b = .ok b2) : b.cur_frame < b2.cur_frame := by
  cases fuel with
  | zero => exact Except.noConfusion h
  | succ fuel =>
    obtain ⟨bmid, ⟨m1, e1, i1⟩, hskip, heq⟩ := parse_hitstun_loop_succ fuel b
    have hpos := skip_broad_state_pos .Hitstun b fr rest hfr hbs
    rw [heq] at h
    by_cases hrec : (peek bmid).map broad_state = some BroadState.Hitstun
    · rw [if_pos hrec] at h
      have h2 := (parse_hitstun_loop_adv fuel bmid b2 h).1
      omega
    · rw [if_neg hrec] at h
      injection h with h2
      subst h2
      omega

/-- parse_hitstun satisfies the Advances contract, and is strict when the
head frame is Hitstun-broad. -/
theorem parse_hitstun_adv (b : ActionBuilder) :
    Advances b (parse_hitstun b)
    ∧ (∀ fr rest, b.frames = fr :: rest → broad_state fr.state = .Hitstun →
        StrictAfter b (parse_hitstun b)) := by
  unfold parse_hitstun
  cases hl : parse_hitstun_loop (b.frames.length + 1) b with
  | error e =>
    exact ⟨error_adv _ _, fun _ _ _ _ => error_strict _ _⟩
  | ok b2 =>
    obtain ⟨m1, e1, i1⟩ := parse_hitstun_loop_adv _ b b2 hl
    refine ⟨finish_pattern_adv b b2 _ m1 e1 i1, ?_⟩
    intro fr rest hfr hbs
    have hlt := parse_hitstun_loop_pos _ b b2 fr rest hfr hbs hl
    exact finish_pattern_strict b b2 _ hlt

/-- parse_airdodge satisfies the Advances contract, and is strict when
the head frame is Airdodge- or SpecialLanding-broad. -/
theorem parse_airdodge_adv (b : ActionBuilder) :
    Advances b (parse_airdodge b)
    ∧ (∀ fr rest, b.frames = fr :: rest →
        (broad_state fr.state = .Airdodge ∨ broad_state fr.state = .SpecialLanding) →
        StrictAfter b (parse_airdodge b)) := by
  unfold parse_airdodge
  dsimp only
  obtain ⟨m1, e1, i1⟩ := skip_broad_state_adv .Airdodge b
  cases hpk : peek (skip_broad_state .Airdodge b) with
  | none =>
    dsimp only
    exact ⟨none_adv _ _ m1 e1 i1, fun _ _ _ _ => none_strict _ _⟩
  | some st =>
    dsimp only
    by_cases hsl : broad_state st = .SpecialLanding
    · rw [if_pos hsl]
      obtain ⟨fr1, rest1, hfr1, hst1⟩ := peek_some _ st hpk
      rw [next_frame_cons _ fr1 rest1 hfr1]
      dsimp only
      obtain ⟨m3, e3, i3⟩ := skip_broad_state_adv .SpecialLanding
        (ActionBuilder.mk rest1 ((skip_broad_state .Airdodge b).cur_frame + 1)
          (skip_broad_state .Airdodge b).action_init_data)
      dsimp only at m3 e3 i3
      have hlen : (skip_broad_state .Airdodge b).frames.length = rest1.length + 1 := by
        rw [hfr1]
        rfl
      constructor
      · exact finish_pattern_adv b _ _ (by omega) (by omega) (by rw [i3, i1])
      · intro fr rest hfr hd
        exact finish_pattern_strict b _ _ (by omega)
    · rw [if_neg hsl]
      refine ⟨finish_pattern_adv b _ _ m1 e1 i1, ?_⟩
      intro fr rest hfr hd
      cases hd with
      | inl hAd =>
        have hpos := skip_broad_state_pos .Airdodge b fr rest hfr hAd
        exact finish_pattern_strict b _ _ (by omega)
      | inr hSL =>
        exfalso
        have hstop : skip_broad_state .Airdodge b = b := by
          apply skip_while_stop _ b fr rest hfr
          simp [hSL]
        rw [hstop] at hpk
        rw [peek, hfr] at hpk
        simp only [List.head?_cons, Option.map_some', Option.some.injEq] at hpk
        rw [← hpk, hSL] at hsl
        exact hsl rfl

/-- parse_air_jump satisfies the handler contracts. -/
theorem parse_air_jump_adv (b : ActionBuilder) :
    Advances b (parse_air_jump b) ∧ StrictAfter b (parse_air_jump b) := by
  obtain ⟨frames, cur, init⟩ := b
  cases frames with
  | nil => exact ⟨none_adv _ _ le_rfl rfl rfl, none_strict _ _⟩
  | cons f0 rest =>
    unfold parse_air_jump
    dsimp only [next, next_frame]
    have hC := skip_courtesy_adv AIRJUMP_COURTESY
      (ActionBuilder.mk rest (cur + 1) init) (by decide)
    cases hsc : skip_courtesy AIRJUMP_COURTESY (ActionBuilder.mk rest (cur + 1) init) with
    | mk cr b2 =>
    rw [hsc] at hC
    dsimp only at hC
    obtain ⟨m2, e2, i2⟩ := hC
    by_cases hmax : cr = .SkipMax
    · rw [if_pos hmax]
      obtain ⟨m3, e3, i3⟩ := skip_broad_state_adv .AirJump b2
      constructor
      · exact finish_pattern_adv _ _ _ (by dsimp only; omega)
          (by dsimp only; simp only [List.length_cons]; omega) (by dsimp only; rw [i3, i2])
      · exact finish_pattern_strict _ _ _ (by dsimp only; omega)
    · rw [if_neg hmax]
      cases hpk : peek b2 with
      | none =>
        dsimp only
        constructor
        · exact none_adv _ _ (by dsimp only; omega)
            (by dsimp only; simp only [List.length_cons]; omega) (by dsimp only; rw [i2])
        · exact none_strict _ _
      | some st =>
        dsimp only
        by_cases hatk : broad_state st = .Attack
        · rw [if_pos hatk]
          have hA := parse_attack_to_end_adv b2
          cases hate : parse_attack_to_end b2 with
          | mk oatk b3 =>
          rw [hate] at hA
          dsimp only at hA
          obtain ⟨m3, e3, i3, _⟩ := hA
          cases oatk with
          | none =>
            dsimp only
            constructor
            · exact none_adv _ _ (by dsimp only; omega)
                (by dsimp only; simp only [List.length_cons]; omega)
                (by dsimp only; rw [i3, i2])
            · exact none_strict _ _
          | some atk =>
            dsimp only
            cases atk with
            | AirAttack a =>
              dsimp only
              constructor
              · exact finish_pattern_adv _ _ _ (by dsimp only; omega)
                  (by dsimp only; simp only [List.length_cons]; omega)
                  (by dsimp only; rw [i3, i2])
              · exact finish_pattern_strict _ _ _ (by dsimp only; omega)
            | GroundAttack g =>
              dsimp only
              constructor
              · exact none_adv _ _ (by dsimp only; omega)
                  (by dsimp only; simp only [List.length_cons]; omega)
                  (by dsimp only; rw [i3, i2])
              · exact none_strict _ _
        · rw [if_neg hatk]
          constructor
          · exact finish_pattern_adv _ _ _ (by dsimp only; omega)
              (by dsimp only; simp only [List.length_cons]; omega) (by dsimp only; rw [i2])
          · exact finish_pattern_strict _ _ _ (by dsimp only; omega)

/-- jump_type_lookup returns its builder unchanged. -/
theorem jump_type_lookup_snd (last : Frame) (b : ActionBuilder) :
    (jump_type_lookup last b).2 = b := by
  unfold jump_type_lookup
  cases JUMP_VELOCITIES.get? last.character.idx <;> rfl

/-- The jump-type loop only moves the cursor forward, balanced,
snapshot-preserving. -/
theorem jump_type_loop_adv :
    ∀ (l : List Frame) (last : Frame) (cur : Nat) (init : Option ActionInitData),
      cur ≤ (jump_type_loop last l cur init).2.cur_frame
      ∧ (jump_type_loop last l cur init).2.cur_frame
          + (jump_type_loop last l cur init).2.frames.length = cur + l.length
      ∧ (jump_type_loop last l cur init).2.action_init_data = init := by
  intro l
  induction l with
  | nil =>
    intro last cur init
    exact ⟨le_rfl, by simp [jump_type_loop], rfl⟩
  | cons f rest ih =>
    intro last cur init
    by_cases hf : broad_state f.state = .JumpSquat
    · rw [jump_type_loop, if_pos hf]
      obtain ⟨m1, e1, i1⟩ := ih f (cur + 1) init
      exact ⟨by omega, by simp only [List.length_cons]; omega, i1⟩
    · rw [jump_type_loop, if_neg hf]
      rw [jump_type_lookup_snd]
      exact ⟨le_rfl, rfl, rfl⟩

/-- parse_jump_type only moves the cursor forward, balanced,
snapshot-preserving, and strictly forward when it classifies a jump. -/
theorem parse_jump_type_adv (b : ActionBuilder) :
    b.cur_frame ≤ (parse_jump_type b).2.cur_frame
    ∧ (parse_jump_type b).2.cur_frame + (parse_jump_type b).2.frames.length
        = b.cur_frame + b.frames.length
    ∧ (parse_jump_type b).2.action_init_data = b.action_init_data
    ∧ ((parse_jump_type b).1.isSome = true →
        b.cur_frame < (parse_jump_type b).2.cur_frame) := by
  obtain ⟨frames, cur, init⟩ := b
  cases frames with
  | nil =>
    refine ⟨le_rfl, rfl, rfl, fun hx => ?_⟩
    simp only [parse_jump_type, next_frame, Option.isSome_none] at hx
    exact Bool.noConfusion hx
  | cons f0 rest =>
    unfold parse_jump_type
    dsimp only [next_frame]
    obtain ⟨m1, e1, i1⟩ := jump_type_loop_adv rest f0 (cur + 1) init
    refine ⟨by omega, ?_, i1, fun _ => by omega⟩
    simp only [List.length_cons]
    omega

/-- The jump-squat airdodge wrapper keeps the Advances contract of
parse_airdodge: the wavedash remap changes only the action kind. -/
theorem parse_jump_squat_airdodge_adv (b : ActionBuilder)
    (hA : Advances b (parse_airdodge b)) :
    Advances b (parse_jump_squat_airdodge b) := by
  intro oa b2 h
  unfold parse_jump_squat_airdodge at h
  cases hpa : parse_airdodge b with
  | error e =>
    rw [hpa] at h
    exact Except.noConfusion h
  | ok p =>
    obtain ⟨oa0, b3⟩ := p
    rw [hpa] at h
    cases oa0 with
    | none =>
      dsimp only at h
      injection h with h2
      injection h2 with h3 h4
      obtain ⟨hb, _⟩ := hA none b3 hpa
      subst h4
      refine ⟨hb, ?_⟩
      intro a ha
      rw [← h3] at ha
      exact Option.noConfusion ha
    | some a0 =>
      dsimp only at h
      injection h with h2
      injection h2 with h3 h4
      obtain ⟨hb, hact⟩ := hA (some a0) b3 hpa
      obtain ⟨hd, hfe⟩ := hact a0 rfl
      subst h4
      refine ⟨hb, ?_⟩
      intro a ha
      rw [← h3] at ha
      injection ha with ha2
      subst ha2
      exact ⟨hd, hfe⟩

/-- The jump-squat airdodge wrapper keeps strictness. -/
theorem parse_jump_squat_airdodge_strict (b : ActionBuilder)
    (hS : StrictAfter b (parse_airdodge b)) :
    StrictAfter b (parse_jump_squat_airdodge b) := by
  intro a b2 h
  unfold parse_jump_squat_airdodge at h
  cases hpa : parse_airdodge b with
  | error e =>
    rw [hpa] at h
    exact Except.noConfusion h
  | ok p =>
    obtain ⟨oa0, b3⟩ := p
    rw [hpa] at h
    cases oa0 with
    | none =>
      dsimp only at h
      injection h with h2
      injection h2 with h3 h4
      exact Option.noConfusion h3
    | some a0 =>
      dsimp only at h
      injection h with h2
      injection h2 with h3 h4
      have hs0 := hS a0 b3 hpa
      injection h3 with h5
      rw [← h5]
      exact hs0

/-- parse_courtesy satisfies the handler contracts whenever the
re-entered dispatcher does. -/
theorem parse_courtesy_adv (rec : ActionBuilder → PResult)
    (hrec : ∀ b, Advances b (rec b) ∧ StrictAfter b (rec b))
    (b : ActionBuilder) (c : Courtesy) (w : HighLevelAction) (hto : 1 < c.timeout) :
    Advances b (parse_courtesy rec b c w)
    ∧ StrictAfter b (parse_courtesy rec b c w) := by
  unfold parse_courtesy
  have hC := skip_courtesy_adv c b (by omega)
  cases hsc : skip_courtesy c b with
  | mk cr b1 =>
  rw [hsc] at hC
  dsimp only at hC
  obtain ⟨m1, e1, i1⟩ := hC
  dsimp only
  by_cases hmax : cr = .SkipMax
  · rw [if_pos hmax]
    have hp : b.cur_frame + 1 ≤ b1.cur_frame := by
      have h2 := skip_courtesy_max_pos c b hto (by rw [hsc]; exact hmax)
      rw [hsc] at h2
      exact h2
    obtain ⟨m2, e2, i2⟩ := skip_broad_state_adv c.state b1
    exact ⟨finish_pattern_adv b _ _ (by omega) (by omega) (by rw [i2, i1]),
           finish_pattern_strict b _ _ (by omega)⟩
  · rw [if_neg hmax]
    obtain ⟨hA, hS⟩ := hrec b1
    exact ⟨adv_step b b1 _ m1 e1 i1 hA, strict_step b b1 _ m1 hS⟩

/-- parse_walk satisfies the handler contracts whenever the re-entered
dispatcher does. -/
theorem parse_walk_adv (rec : ActionBuilder → PResult)
    (hrec : ∀ b, Advances b (rec b) ∧ StrictAfter b (rec b))
    (b : ActionBuilder) :
    Advances b (parse_walk rec b) ∧ StrictAfter b (parse_walk rec b) := by
  obtain ⟨frames, cur, init⟩ := b
  cases frames with
  | nil => exact ⟨error_adv _ _, error_strict _ _⟩
  | cons f0 rest =>
    unfold parse_walk
    dsimp only [next_frame]
    have hC := skip_courtesy_adv WALK_COURTESY
      (ActionBuilder.mk rest (cur + 1) init) (by decide)
    cases hsc : skip_courtesy WALK_COURTESY (ActionBuilder.mk rest (cur + 1) init) with
    | mk cr b2 =>
    rw [hsc] at hC
    dsimp only at hC
    obtain ⟨m2, e2, i2⟩ := hC
    by_cases hmax : cr = .SkipMax
    · rw [if_pos hmax]
      obtain ⟨m3, e3, i3⟩ := skip_broad_state_adv .Walk b2
      constructor
      · exact finish_pattern_adv _ _ _ (by dsimp only; omega)
          (by dsimp only; simp only [List.length_cons]; omega) (by dsimp only; rw [i3, i2])
      · exact finish_pattern_strict _ _ _ (by dsimp only; omega)
    · rw [if_neg hmax]
      obtain ⟨hA, _⟩ := hrec b2
      constructor
      · exact adv_step _ b2 _ (by dsimp only; omega)
          (by dsimp only; simp only [List.length_cons]; omega) (by dsimp only; rw [i2]) hA
      · exact strict_of_progress _ b2 _ (by dsimp only; omega) hA

/-- parse_dash satisfies the handler contracts whenever the re-entered
dispatcher does. -/
theorem parse_dash_adv (rec : ActionBuilder → PResult)
    (hrec : ∀ b, Advances b (rec b) ∧ StrictAfter b (rec b))
    (b : ActionBuilder) :
    Advances b (parse_dash rec b) ∧ StrictAfter b (parse_dash rec b) := by
  obtain ⟨frames, cur, init⟩ := b
  cases frames with
  | nil => exact ⟨error_adv _ _, error_strict _ _⟩
  | cons f0 rest =>
    unfold parse_dash
    dsimp only [next_frame]
    obtain ⟨hA, hS⟩ := parse_courtesy_adv rec hrec
      (ActionBuilder.mk rest (cur + 1) init) DASH_COURTESY _ (by decide)
    constructor
    · exact adv_step _ (ActionBuilder.mk rest (cur + 1) init) _ (by dsimp only; omega)
        (by dsimp only; simp only [List.length_cons]; omega) rfl hA
    · exact strict_step _ (ActionBuilder.mk rest (cur + 1) init) _
        (by dsimp only; omega) hS

/-- parse_jump_squat satisfies the handler contracts. -/
theorem parse_jump_squat_adv (b : ActionBuilder) :
    Advances b (parse_jump_squat b) ∧ StrictAfter b (parse_jump_squat b) := by
  unfold parse_jump_squat
  have hJ := parse_jump_type_adv b
  cases hjt : parse_jump_type b with
  | mk ojt b1 =>
  rw [hjt] at hJ
  dsimp only at hJ
  obtain ⟨m1, e1, i1, hpos1⟩ := hJ
  cases ojt with
  | none =>
    dsimp only
    exact ⟨none_adv _ _ m1 e1 i1, none_strict _ _⟩
  | some jt =>
    dsimp only
    have hpos : b.cur_frame < b1.cur_frame := hpos1 rfl
    have hC := skip_courtesy_adv AIR_COURTESY b1 (by decide)
    cases hsc : skip_courtesy AIR_COURTESY b1 with
    | mk cr b2 =>
    rw [hsc] at hC
    dsimp only at hC
    obtain ⟨m2, e2, i2⟩ := hC
    dsimp only
    by_cases hmax : cr = .SkipMax
    · rw [if_pos hmax]
      exact ⟨finish_pattern_adv b _ _ (by omega) (by omega) (by rw [i2, i1]),
             finish_pattern_strict b _ _ (by omega)⟩
    · rw [if_neg hmax]
      cases hpk : peek b2 with
      | none =>
        dsimp only
        exact ⟨none_adv _ _ (by omega) (by omega) (by rw [i2, i1]), none_strict _ _⟩
      | some st =>
        dsimp only
        cases hbs : broad_state st
        · dsimp only
          have hA := parse_attack_to_end_adv b2
          cases hate : parse_attack_to_end b2 with
          | mk oatk b3 =>
          rw [hate] at hA
          dsimp only at hA
          obtain ⟨m3, e3, i3, _⟩ := hA
          cases oatk with
          | none =>
            dsimp only
            exact ⟨none_adv _ _ (by omega) (by omega) (by rw [i3, i2, i1]),
                   none_strict _ _⟩
          | some atk =>
            dsimp only
            exact ⟨finish_pattern_adv b _ _ (by omega) (by omega) (by rw [i3, i2, i1]),
                   finish_pattern_strict b _ _ (by omega)⟩
        · exact ⟨finish_pattern_adv b _ _ (by omega) (by omega) (by rw [i2, i1]),
                 finish_pattern_strict b _ _ (by omega)⟩
        · dsimp only
          obtain ⟨hA, _⟩ := parse_airdodge_adv b2
          have hW := parse_jump_squat_airdodge_adv b2 hA
          exact ⟨adv_step b b2 _ (by omega) (by omega) (by rw [i2, i1]) hW,
                 strict_of_progress b b2 _ (by omega) hW⟩
        · dsimp only
          obtain ⟨hA, _⟩ := parse_airdodge_adv b2
          have hW := parse_jump_squat_airdodge_adv b2 hA
          exact ⟨adv_step b b2 _ (by omega) (by omega) (by rw [i2, i1]) hW,
                 strict_of_progress b b2 _ (by omega) hW⟩
        · exact ⟨finish_pattern_adv b _ _ (by omega) (by omega) (by rw [i2, i1]),
                 finish_pattern_strict b _ _ (by omega)⟩
        · exact ⟨finish_pattern_adv b _ _ (by omega) (by omega) (by rw [i2, i1]),
                 finish_pattern_strict b _ _ (by omega)⟩
        · exact ⟨finish_pattern_adv b _ _ (by omega) (by omega) (by rw [i2, i1]),
                 finish_pattern_strict b _ _ (by omega)⟩
        · exact ⟨finish_pattern_adv b _ _ (by omega) (by omega) (by rw [i2, i1]),
                 finish_pattern_strict b _ _ (by omega)⟩
        · exact ⟨finish_pattern_adv b _ _ (by omega) (by omega) (by rw [i2, i1]),
                 finish_pattern_strict b _ _ (by omega)⟩
        · exact ⟨finish_pattern_adv b _ _ (by omega) (by omega) (by rw [i2, i1]),
                 finish_pattern_strict b _ _ (by omega)⟩
        · exact ⟨finish_pattern_adv b _ _ (by omega) (by omega) (by rw [i2, i1]),
                 finish_pattern_strict b _ _ (by omega)⟩
        · exact ⟨finish_pattern_adv b _ _ (by omega) (by omega) (by rw [i2, i1]),
                 finish_pattern_strict b _ _ (by omega)⟩
        · exact ⟨finish_pattern_adv b _ _ (by omega) (by omega) (by rw [i2, i1]),
                 finish_pattern_strict b _ _ (by omega)⟩
        · dsimp only
          obtain ⟨hA, _⟩ := parse_air_jump_adv b2
          exact ⟨adv_step b b2 _ (by omega) (by omega) (by rw [i2, i1]) hA,
                 strict_of_progress b b2 _ (by omega) hA⟩
        · exact ⟨finish_pattern_adv b _ _ (by omega) (by omega) (by rw [i2, i1]),
                 finish_pattern_strict b _ _ (by omega)⟩
        · dsimp only
          obtain ⟨hA, _⟩ := parse_simple_action_adv b2 .Grab .Grab
          exact ⟨adv_step b b2 _ (by omega) (by omega) (by rw [i2, i1]) hA,
                 strict_of_progress b b2 _ (by omega) hA⟩
        · exact ⟨finish_pattern_adv b _ _ (by omega) (by omega) (by rw [i2, i1]),
                 finish_pattern_strict b _ _ (by omega)⟩
        · exact ⟨finish_pattern_adv b _ _ (by omega) (by omega) (by rw [i2, i1]),
                 finish_pattern_strict b _ _ (by omega)⟩

/-- parse_ledge satisfies the handler contracts (its unlisted post-ledge
branch is a panic and so vacuously sound). -/
theorem parse_ledge_adv (b : ActionBuilder) :
    Advances b (parse_ledge b) ∧ StrictAfter b (parse_ledge b) := by
  unfold parse_ledge
  have hC := skip_courtesy_adv LEDGE_COURTESY b (by decide)
  cases hsc : skip_courtesy LEDGE_COURTESY b with
  | mk cr b1 =>
  rw [hsc] at hC
  dsimp only at hC
  obtain ⟨m1, e1, i1⟩ := hC
  dsimp only
  by_cases hmax : cr = .SkipMax
  · rw [if_pos hmax]
    have hp : b.cur_frame + 1 ≤ b1.cur_frame := by
      have h2 := skip_courtesy_max_pos LEDGE_COURTESY b (by decide) (by rw [hsc]; exact hmax)
      rw [hsc] at h2
      exact h2
    exact ⟨finish_pattern_adv b _ _ (by omega) e1 i1,
           finish_pattern_strict b _ _ (by omega)⟩
  · rw [if_neg hmax]
    cases hpk1 : peek b1 with
    | none =>
      dsimp only
      exact ⟨none_adv _ _ m1 e1 i1, none_strict _ _⟩
    | some st =>
      dsimp only
      cases hbs1 : broad_state st
      · exact ⟨error_adv _ _, error_strict _ _⟩
      · -- Air
        dsimp only
        obtain ⟨frA, restA, hfrA, hstA⟩ := peek_some b1 st hpk1
        have hp2A := skip_courtesy_head_pos AIR_COURTESY b1 frA restA hfrA
          (by rw [hstA]; exact hbs1) (by decide)
        have hC2 := skip_courtesy_adv AIR_COURTESY b1 (by decide)
        cases hsc2 : skip_courtesy AIR_COURTESY b1 with
        | mk cr2 b2 =>
        rw [hsc2] at hC2 hp2A
        dsimp only at hC2 hp2A
        obtain ⟨m2, e2, i2⟩ := hC2
        dsimp only
        by_cases hmax2 : cr2 = .SkipMax
        · rw [if_pos hmax2]
          exact ⟨finish_pattern_adv b _ _ (by omega) (by omega) (by rw [i2, i1]),
                 finish_pattern_strict b _ _ (by omega)⟩
        · rw [if_neg hmax2]
          cases hpk2 : peek b2 with
          | none =>
            dsimp only
            exact ⟨none_adv _ _ (by omega) (by omega) (by rw [i2, i1]), none_strict _ _⟩
          | some st2 =>
            dsimp only
            cases hbs2 : broad_state st2
            · exact ⟨finish_pattern_adv b _ _ (by omega) (by omega) (by rw [i2, i1]),
                     finish_pattern_strict b _ _ (by omega)⟩
            · exact ⟨finish_pattern_adv b _ _ (by omega) (by omega) (by rw [i2, i1]),
                     finish_pattern_strict b _ _ (by omega)⟩
            · exact ⟨finish_pattern_adv b _ _ (by omega) (by omega) (by rw [i2, i1]),
                     finish_pattern_strict b _ _ (by omega)⟩
            · exact ⟨finish_pattern_adv b _ _ (by omega) (by omega) (by rw [i2, i1]),
                     finish_pattern_strict b _ _ (by omega)⟩
            · exact ⟨finish_pattern_adv b _ _ (by omega) (by omega) (by rw [i2, i1]),
                     finish_pattern_strict b _ _ (by omega)⟩
            · exact ⟨finish_pattern_adv b _ _ (by omega) (by omega) (by rw [i2, i1]),
                     finish_pattern_strict b _ _ (by omega)⟩
            · exact ⟨finish_pattern_adv b _ _ (by omega) (by omega) (by rw [i2, i1]),
                     finish_pattern_strict b _ _ (by omega)⟩
            · exact ⟨finish_pattern_adv b _ _ (by omega) (by omega) (by rw [i2, i1]),
                     finish_pattern_strict b _ _ (by omega)⟩
            · exact ⟨finish_pattern_adv b _ _ (by omega) (by omega) (by rw [i2, i1]),
                     finish_pattern_strict b _ _ (by omega)⟩
            · exact ⟨finish_pattern_adv b _ _ (by omega) (by omega) (by rw [i2, i1]),
                     finish_pattern_strict b _ _ (by omega)⟩
            · -- Hitstun at b2
              dsimp only
              obtain ⟨hA, _⟩ := parse_hitstun_adv b2
              exact ⟨adv_step b b2 _ (by omega) (by omega) (by rw [i2, i1]) hA,
                     strict_of_progress b b2 _ (by omega) hA⟩
            · exact ⟨finish_pattern_adv b _ _ (by omega) (by omega) (by rw [i2, i1]),
                     finish_pattern_strict b _ _ (by omega)⟩
            · exact ⟨finish_pattern_adv b _ _ (by omega) (by omega) (by rw [i2, i1]),
                     finish_pattern_strict b _ _ (by omega)⟩
            · -- AirJump at b2
              dsimp only
              obtain ⟨fr2, rest2, hfr2, hst2⟩ := peek_some b2 st2 hpk2
              rw [next_snd_cur b2 fr2 rest2 hfr2]
              have hlen2 : b2.frames.length = rest2.length + 1 := by
                rw [hfr2]
                rfl
              have hC3 := skip_courtesy_adv AIRJUMP_COURTESY
                (ActionBuilder.mk rest2 (b2.cur_frame + 1) b2.action_init_data) (by decide)
              cases hsc3 : skip_courtesy AIRJUMP_COURTESY
                  (ActionBuilder.mk rest2 (b2.cur_frame + 1) b2.action_init_data) with
              | mk cr3 b4 =>
              rw [hsc3] at hC3
              dsimp only at hC3
              obtain ⟨m3, e3, i3⟩ := hC3
              dsimp only
              by_cases hmax3 : cr3 = .SkipMax
              · rw [if_pos hmax3]
                obtain ⟨m5, e5, i5⟩ := skip_broad_state_adv .AirJump b4
                exact ⟨finish_pattern_adv b _ _ (by omega) (by omega)
                        (by rw [i5, i3, i2, i1]),
                       finish_pattern_strict b _ _ (by omega)⟩
              · rw [if_neg hmax3]
                cases hpk3 : peek b4 with
                | none =>
                  dsimp only
                  exact ⟨none_adv _ _ (by omega) (by omega) (by rw [i3, i2, i1]),
                         none_strict _ _⟩
                | some st3 =>
                  dsimp only
                  cases hbs3 : broad_state st3
                  · -- Attack at b4
                    dsimp only
                    have hA := parse_attack_to_end_adv b4
                    cases hate : parse_attack_to_end b4 with
                    | mk oatk b5 =>
                    rw [hate] at hA
                    dsimp only at hA
                    obtain ⟨m5, e5, i5, _⟩ := hA
                    cases oatk with
                    | none =>
                      dsimp only
                      exact ⟨none_adv _ _ (by omega) (by omega) (by rw [i5, i3, i2, i1]),
                             none_strict _ _⟩
                    | some atk =>
                      dsimp only
                      cases atk with
                      | GroundAttack g =>
                        dsimp only
                        exact ⟨finish_pattern_adv b _ _ (by omega) (by omega)
                                (by rw [i5, i3, i2, i1]),
                               finish_pattern_strict b _ _ (by omega)⟩
                      | AirAttack a =>
                        dsimp only
                        exact ⟨finish_pattern_adv b _ _ (by omega) (by omega)
                                (by rw [i5, i3, i2, i1]),
                               finish_pattern_strict b _ _ (by omega)⟩
                  · exact ⟨finish_pattern_adv b _ _ (by omega) (by omega)
                            (by rw [i3, i2, i1]),
                           finish_pattern_strict b _ _ (by omega)⟩
                  · -- Airdodge at b4 with the LedgeDash remap
                    dsimp only
                    obtain ⟨hA, _⟩ := parse_airdodge_adv b4
                    have hIcomp : b.action_init_data = b4.action_init_data := by
                      rw [i3, i2, i1]
                    cases hpa : parse_airdodge b4 with
                    | error e =>
                      dsimp only
                      exact ⟨error_adv _ _, error_strict _ _⟩
                    | ok p =>
                      obtain ⟨oa0, b5⟩ := p
                      cases oa0 with
                      | none =>
                        dsimp only
                        obtain ⟨⟨m5, e5, i5⟩, _⟩ := hA none b5 hpa
                        exact ⟨none_adv _ _ (by omega) (by omega) (by rw [i5, ← hIcomp]),
                               none_strict _ _⟩
                      | some a0 =>
                        dsimp only
                        obtain ⟨⟨m5, e5, i5⟩, hcl⟩ := hA (some a0) b5 hpa
                        obtain ⟨⟨d, hd, hfs⟩, hfe⟩ := hcl a0 rfl
                        constructor
                        · intro oa b6 hres
                          injection hres with h2
                          injection h2 with h3 h4
                          subst h4
                          refine ⟨⟨by omega, by omega, by rw [i5, ← hIcomp]⟩, ?_⟩
                          intro a ha
                          rw [← h3] at ha
                          injection ha with ha2
                          subst ha2
                          exact ⟨⟨d, by rw [hIcomp]; exact hd, hfs⟩, hfe⟩
                        · intro a b6 hres
                          injection hres with h2
                          injection h2 with h3 h4
                          injection h3 with h5
                          rw [← h5]
                          have hlt : b.cur_frame < a0.frame_end := by omega
                          exact hlt
                  · -- SpecialLanding at b4
                    dsimp only
                    obtain ⟨m5, e5, i5⟩ := skip_broad_state_adv .SpecialLanding b4
                    exact ⟨finish_pattern_adv b _ _ (by omega) (by omega)
                            (by rw [i5, i3, i2, i1]),
                           finish_pattern_strict b _ _ (by omega)⟩
                  · exact ⟨finish_pattern_adv b _ _ (by omega) (by omega)
                            (by rw [i3, i2, i1]),
                           finish_pattern_strict b _ _ (by omega)⟩
                  · exact ⟨finish_pattern_adv b _ _ (by omega) (by omega)
                            (by rw [i3, i2, i1]),
                           finish_pattern_strict b _ _ (by omega)⟩
                  · exact ⟨finish_pattern_adv b _ _ (by omega) (by omega)
                            (by rw [i3, i2, i1]),
                           finish_pattern_strict b _ _ (by omega)⟩
                  · exact ⟨finish_pattern_adv b _ _ (by omega) (by omega)
                            (by rw [i3, i2, i1]),
                           finish_pattern_strict b _ _ (by omega)⟩
                  · exact ⟨finish_pattern_adv b _ _ (by omega) (by omega)
                            (by rw [i3, i2, i1]),
                           finish_pattern_strict b _ _ (by omega)⟩
                  · exact ⟨finish_pattern_adv b _ _ (by omega) (by omega)
                            (by rw [i3, i2, i1]),
                           finish_pattern_strict b _ _ (by omega)⟩
                  · -- Hitstun at b4
                    dsimp only
                    obtain ⟨hA, _⟩ := parse_hitstun_adv b4
                    exact ⟨adv_step b b4 _ (by omega) (by omega) (by rw [i3, i2, i1]) hA,
                           strict_of_progress b b4 _ (by omega) hA⟩
                  · exact ⟨finish_pattern_adv b _ _ (by omega) (by omega)
                            (by rw [i3, i2, i1]),
                           finish_pattern_strict b _ _ (by omega)⟩
                  · exact ⟨finish_pattern_adv b _ _ (by omega) (by omega)
                            (by rw [i3, i2, i1]),
                           finish_pattern_strict b _ _ (by omega)⟩
                  · exact ⟨finish_pattern_adv b _ _ (by omega) (by omega)
                            (by rw [i3, i2, i1]),
                           finish_pattern_strict b _ _ (by omega)⟩
                  · exact ⟨finish_pattern_adv b _ _ (by omega) (by omega)
                            (by rw [i3, i2, i1]),
                           finish_pattern_strict b _ _ (by omega)⟩
                  · exact ⟨finish_pattern_adv b _ _ (by omega) (by omega)
                            (by rw [i3, i2, i1]),
                           finish_pattern_strict b _ _ (by omega)⟩
                  · exact ⟨finish_pattern_adv b _ _ (by omega) (by omega)
                            (by rw [i3, i2, i1]),
                           finish_pattern_strict b _ _ (by omega)⟩
                  · exact ⟨finish_pattern_adv b _ _ (by omega) (by omega)
                            (by rw [i3, i2, i1]),
                           finish_pattern_strict b _ _ (by omega)⟩
            · exact ⟨finish_pattern_adv b _ _ (by omega) (by omega) (by rw [i2, i1]),
                     finish_pattern_strict b _ _ (by omega)⟩
            · exact ⟨finish_pattern_adv b _ _ (by omega) (by omega) (by rw [i2, i1]),
                     finish_pattern_strict b _ _ (by omega)⟩
            · exact ⟨finish_pattern_adv b _ _ (by omega) (by omega) (by rw [i2, i1]),
                     finish_pattern_strict b _ _ (by omega)⟩
            · exact ⟨finish_pattern_adv b _ _ (by omega) (by omega) (by rw [i2, i1]),
                     finish_pattern_strict b _ _ (by omega)⟩
      · exact ⟨error_adv _ _, error_strict _ _⟩
      · exact ⟨error_adv _ _, error_strict _ _⟩
      · exact ⟨error_adv _ _, error_strict _ _⟩
      · exact ⟨error_adv _ _, error_strict _ _⟩
      · exact ⟨error_adv _ _, error_strict _ _⟩
      · exact ⟨error_adv _ _, error_strict _ _⟩
      · exact ⟨error_adv _ _, error_strict _ _⟩
      · -- LedgeAction at b1
        dsimp only
        obtain ⟨hA, hS⟩ := parse_ledge_action_adv b1
        exact ⟨adv_step b b1 _ m1 e1 i1 hA, strict_step b b1 _ m1 hS⟩
      · -- Hitstun at b1
        dsimp only
        obtain ⟨frH, restH, hfrH, hstH⟩ := peek_some b1 st hpk1
        obtain ⟨hA, hSc⟩ := parse_hitstun_adv b1
        have hS := hSc frH restH hfrH (by rw [hstH]; exact hbs1)
        exact ⟨adv_step b b1 _ m1 e1 i1 hA, strict_step b b1 _ m1 hS⟩
      · exact ⟨error_adv _ _, error_strict _ _⟩
      · exact ⟨error_adv _ _, error_strict _ _⟩
      · exact ⟨error_adv _ _, error_strict _ _⟩
      · exact ⟨error_adv _ _, error_strict _ _⟩
      · exact ⟨error_adv _ _, error_strict _ _⟩
      · exact ⟨error_adv _ _, error_strict _ _⟩
      · exact ⟨error_adv _ _, error_strict _ _⟩

/-- The dispatcher parse_next satisfies the handler contracts at every
fuel: a normal return only moves the cursor forward by exactly the frames
it consumed, preserves the pending snapshot, and any emitted action
starts at the snapshot origin and ends exactly at the final cursor,
strictly after the entry cursor. -/
theorem parse_next_adv :
    ∀ (fuel : Nat) (b : ActionBuilder),
      Advances b (parse_next fuel b) ∧ StrictAfter b (parse_next fuel b) := by
  intro fuel
  induction fuel with
  | zero =>
    intro b
    exact ⟨error_adv _ _, error_strict _ _⟩
  | succ fuel ih =>
    intro b
    cases hpk : peek b with
    | none =>
      have he : parse_next (fuel + 1) b = .ok (none, b) := by
        rw [parse_next, hpk]
      rw [he]
      exact ⟨none_adv _ _ le_rfl rfl rfl, none_strict _ _⟩
    | some st =>
      rw [parse_next_eq fuel b st hpk]
      obtain ⟨fr, rest, hfr, hst⟩ := peek_some b st hpk
      cases hbs : broad_state st
      · exact parse_attack_adv b
      · exact parse_courtesy_adv (parse_next fuel) ih b AIR_COURTESY .AirWait (by decide)
      · obtain ⟨hA, hS⟩ := parse_airdodge_adv b
        exact ⟨hA, hS fr rest hfr (Or.inl (by rw [hst]; exact hbs))⟩
      · obtain ⟨m1, e1, i1⟩ := skip_broad_state_adv .SpecialLanding b
        exact ⟨none_adv _ _ m1 e1 i1, none_strict _ _⟩
      · exact parse_courtesy_adv (parse_next fuel) ih b GROUND_COURTESY .GroundWait
          (by decide)
      · exact parse_walk_adv (parse_next fuel) ih b
      · exact parse_dash_adv (parse_next fuel) ih b
      · exact parse_courtesy_adv (parse_next fuel) ih b SHIELD_COURTESY .Shield (by decide)
      · exact parse_ledge_adv b
      · exact parse_ledge_action_adv b
      · obtain ⟨hA, hS⟩ := parse_hitstun_adv b
        exact ⟨hA, hS fr rest hfr (by rw [hst]; exact hbs)⟩
      · obtain ⟨m1, e1, i1⟩ := skip_broad_state_adv .GenericInactionable b
        exact ⟨none_adv _ _ m1 e1 i1, none_strict _ _⟩
      · exact parse_jump_squat_adv b
      · exact parse_air_jump_adv b
      · exact parse_courtesy_adv (parse_next fuel) ih b CROUCH_COURTESY .Crouch (by decide)
      · obtain ⟨hA, hS⟩ := parse_simple_action_adv b .Grab .Grab
        exact ⟨hA, hS fr rest hfr (by rw [hst]; exact hbs)⟩
      · exact parse_roll_adv b
      · obtain ⟨hA, hS⟩ := parse_simple_action_adv b .Spotdodge .Spotdodge
        exact ⟨hA, hS fr rest hfr (by rw [hst]; exact hbs)⟩

/-- The top-level loop invariant: on a normal return every emitted action
starts at or after the entry cursor and spans at least one frame, and
consecutive actions do not overlap. -/
theorem parse_loop_inv :
    ∀ (fuel : Nat) (b : ActionBuilder) (acts : List Action),
      parse_loop fuel b = .ok acts →
      (∀ a ∈ acts, b.cur_frame ≤ a.frame_start ∧ a.frame_start < a.frame_end)
      ∧ List.Chain' (fun x y => x.frame_end ≤ y.frame_start) acts := by
  intro fuel
  induction fuel with
  | zero =>
    intro b acts h
    exact Except.noConfusion h
  | succ fuel ih =>
    intro b acts h
    rw [parse_loop_eq] at h
    cases hfr : b.frames with
    | nil =>
      rw [hfr] at h
      dsimp only at h
      injection h with h2
      subst h2
      exact ⟨fun a ha => absurd ha (by simp), List.chain'_nil⟩
    | cons fr tail =>
      rw [hfr] at h
      dsimp only at h
      cases hact : actionable_state fr.state with
      | error e =>
        rw [hact] at h
        exact Except.noConfusion h
      | ok oact =>
        rw [hact] at h
        cases oact with
        | none =>
          dsimp only at h
          rw [next_snd_cur b fr tail hfr] at h
          obtain ⟨hmem, hchain⟩ := ih _ acts h
          refine ⟨?_, hchain⟩
          intro a ha
          have h3 := hmem a ha
          dsimp only at h3
          exact ⟨by omega, h3.2⟩
        | some r =>
          dsimp only at h
          cases hsa : start_action b with
          | error e =>
            rw [hsa] at h
            exact Except.noConfusion h
          | ok b1 =>
            rw [hsa] at h
            dsimp only at h
            have hb1 : b1 = ActionBuilder.mk b.frames b.cur_frame
                (some (ActionInitData.mk b.cur_frame r fr.position fr.velocity)) := by
              rw [start_action, hfr] at hsa
              dsimp only at hsa
              rw [hact] at hsa
              dsimp only at hsa
              injection hsa with h2
              rw [← h2, hfr]
            have hb1cur : b1.cur_frame = b.cur_frame := by rw [hb1]
            have hb1init : b1.action_init_data
                = some (ActionInitData.mk b.cur_frame r fr.position fr.velocity) := by
              rw [hb1]
            obtain ⟨hAdv, hStr⟩ := parse_next_adv (2 * b1.frames.length + 3) b1
            cases hpn : parse_next (2 * b1.frames.length + 3) b1 with
            | error e =>
              rw [hpn] at h
              exact Except.noConfusion h
            | ok p =>
              obtain ⟨oa, b2⟩ := p
              rw [hpn] at h
              obtain ⟨⟨m2, e2, i2⟩, hactcl⟩ := hAdv oa b2 hpn
              cases oa with
              | none =>
                dsimp only at h
                obtain ⟨hmem, hchain⟩ := ih b2 acts h
                refine ⟨?_, hchain⟩
                intro a ha
                have h3 := hmem a ha
                exact ⟨by omega, h3.2⟩
              | some a0 =>
                dsimp only at h
                cases hrec : parse_loop fuel b2 with
                | error e =>
                  rw [hrec] at h
                  exact Except.noConfusion h
                | ok acts2 =>
                  rw [hrec] at h
                  dsimp only at h
                  injection h with h2
                  subst h2
                  obtain ⟨hmem, hchain⟩ := ih b2 acts2 hrec
                  obtain ⟨⟨d, hd, hfs⟩, hfe⟩ := hactcl a0 rfl
                  have hdd : d = ActionInitData.mk b.cur_frame r fr.position fr.velocity := by
                    rw [hb1init] at hd
                    injection hd with h3
                    exact h3.symm
                  have hfs2 : a0.frame_start = b.cur_frame := by rw [hfs, hdd]
                  have hstrict := hStr a0 b2 hpn
                  constructor
                  · intro a ha
                    rcases List.mem_cons.mp ha with rfl | hmem2
                    · exact ⟨by omega, by omega⟩
                    · obtain ⟨hy1, hy2⟩ := hmem a hmem2
                      exact ⟨by omega, hy2⟩
                  · rw [List.chain'_cons']
                    refine ⟨?_, hchain⟩
                    intro y hy
                    obtain ⟨hy1, _⟩ := hmem y (List.mem_of_mem_head? hy)
                    omega

/-- A chain of non-overlapping actions, each spanning at least one frame,
has strictly ascending start and end positions. -/
theorem chain_strengthen :
    ∀ (acts : List Action), (∀ a ∈ acts, a.frame_start < a.frame_end) →
      List.Chain' (fun x y => x.frame_end ≤ y.frame_start) acts →
      List.Chain' (fun x y => x.frame_start < y.frame_start
        ∧ x.frame_end < y.frame_end) acts := by
  intro acts
  induction acts with
  | nil =>
    intro _ _
    exact List.chain'_nil
  | cons a l ih =>
    intro hmem hc
    rw [List.chain'_cons'] at hc ⊢
    obtain ⟨hhead, htail⟩ := hc
    refine ⟨?_, ih (fun x hx => hmem x (List.mem_cons_of_mem a hx)) htail⟩
    intro y hy
    have h1 := hhead y hy
    have h2 := hmem a (List.mem_cons_self a l)
    have h3 := hmem y (List.mem_cons_of_mem a (List.mem_of_mem_head? hy))
    exact ⟨by omega, by omega⟩

/-- Claim C5: for every frame array on which segment (parse) returns
normally, the produced actions are strictly ordered and non-overlapping:
every action spans at least one frame, consecutive actions satisfy
frame_end of the earlier at most frame_start of the later, and the
(frame_start, frame_end) ranges are strictly ascending. -/
theorem C5_actions_ordered (frames : List Frame) (acts : List Action)
    (h : parse frames = .ok acts) :
    (∀ a ∈ acts, a.frame_start < a.frame_end)
    ∧ List.Chain' (fun x y => x.frame_end ≤ y.frame_start) acts
    ∧ List.Chain' (fun x y => x.frame_start < y.frame_start
        ∧ x.frame_end < y.frame_end) acts := by
  unfold parse at h
  obtain ⟨hmem, hchain⟩ :=
    parse_loop_inv (frames.length + 1) (ActionBuilder.mk frames 0 none) acts h
  have hlt : ∀ a ∈ acts, a.frame_start < a.frame_end := fun a ha => (hmem a ha).2
  exact ⟨hlt, hchain, chain_strengthen acts hlt hchain⟩

/-- Claim C5 witness: on six Wait frames the parser returns one GroundWait
action spanning frames 0 to 6, and the ordering properties hold of that
output. -/
theorem C5_actions_ordered_witness :
    (∀ a ∈ [c5_action], a.frame_start < a.frame_end)
    ∧ List.Chain' (fun x y => x.frame_end ≤ y.frame_start) [c5_action]
    ∧ List.Chain' (fun x y => x.frame_start < y.frame_start
        ∧ x.frame_end < y.frame_end) [c5_action] :=
  C5_actions_ordered c5_frames [c5_action] rfl

end Slippi
